import Mathlib

/-!
Verification of the Avalon game engine (haomes/avalon).

This file gives a shallow embedding, in Lean 4, of the parts of the engine
relevant to the specification claims: the per-agent hierarchical memory
manager (`src/agents/memory.py`), the LLM retry wrapper (`src/llm_client.py`),
the pause/resume/step control layer (`src/server/async_game_runner.py`), and
the game protocol itself (`src/engine/*.py`, `src/models/game_state.py`,
`src/agents/agent.py`).  External LLM calls are modelled as oracle functions
(`String → String` or per-attempt result streams); free-text parsing of
oracle responses is modelled from the structured data the parsers extract
(the JSON field, the extracted digit list), which is the interface the spec
assigns to them.  All definitions are executable.
-/

set_option maxHeartbeats 1000000
set_option linter.unusedVariables false
set_option linter.unreachableTactic false
set_option linter.unnecessarySeqFocus false
set_option linter.unusedTactic false

namespace Avalon

/-! ### String helpers used by the memory manager (`memory.py`, `llm_client.py`)

These mirror the Python `str` operations used by the source.  They are
written by structural recursion on the character list so that they evaluate
inside the kernel (the core library versions use well-founded recursion and
do not reduce). -/

/-- Python's `str.strip()` — drop whitespace from both ends. -/
def pyStrip (s : String) : String :=
  ⟨((s.data.dropWhile Char.isWhitespace).reverse.dropWhile Char.isWhitespace).reverse⟩

/-- Python's `str.startswith` — character-prefix test. -/
def strStartsWith (s p : String) : Bool :=
  p.data.isPrefixOf s.data

/-- Auxiliary for the substring test: does `pat` occur at any position? -/
def containsAux (pat : List Char) : List Char → Bool
  | [] => pat.isPrefixOf []
  | c :: rest => pat.isPrefixOf (c :: rest) || containsAux pat rest

/-- Python's `pat in s` substring test. -/
def strContains (s pat : String) : Bool :=
  containsAux pat.data s.data

/-- Auxiliary for `splitLines`: split at every newline character. -/
def splitLinesAux : List Char → List Char → List String
  | [], acc => [⟨acc.reverse⟩]
  | c :: rest, acc =>
    if c = '\n' then ⟨acc.reverse⟩ :: splitLinesAux rest []
    else splitLinesAux rest (c :: acc)

/-- Python's `str.split("\n")`. -/
def splitLines (s : String) : List String :=
  splitLinesAux s.data []

/-- Python's `sep.join(parts)`. -/
def joinSep (sep : String) : List String → String
  | [] => ""
  | [x] => x
  | x :: y :: xs => x ++ sep ++ joinSep sep (y :: xs)

/-- One iteration of the loop in `MemoryManager._simplify_prompt` (memory.py
lines 205-231): the accumulator is the `useful_lines` list plus the `skip`
flag. -/
def simplifyStep : List String × Bool → String → List String × Bool
  | (useful, skip), line =>
    if strContains line "请严格按照以下JSON格式" then (useful, true)
    else if strContains line "请直接说出你的发言内容" then (useful, skip)
    else if strContains line "注意不要暴露自己的真实身份" then (useful, skip)
    else if skip && (strStartsWith (pyStrip line) "\x7b" || strStartsWith (pyStrip line) "例如") then
      (useful, skip)
    else if pyStrip line != "" then (useful ++ [pyStrip line], false)
    else (useful, false)

/-- `MemoryManager._simplify_prompt`: strip templated instruction lines and
keep the first 5 non-empty stripped lines, joined by spaces. -/
def simplifyPrompt (prompt : String) : String :=
  joinSep " " (((splitLines prompt).foldl simplifyStep ([], false)).1.take 5)

/-- A role-tagged message, the element type of `MemoryManager.recent`. -/
structure Msg where
  role : String
  content : String
deriving Repr, DecidableEq

/-- The lines contributed by one message in
`MemoryManager._format_messages_for_summary` (memory.py lines 174-203). -/
def formatLine (playerName : String) (m : Msg) : List String :=
  if m.role == "user" then
    if strStartsWith m.content "[游戏事件]" then [m.content]
    else if strStartsWith m.content "[任务执行]" then [m.content]
    else
      let simplified := simplifyPrompt m.content
      if simplified != "" then ["[决策请求] " ++ simplified] else []
  else if m.role == "assistant" then
    ["[" ++ playerName ++ "的回复] " ++ m.content]
  else []

/-- `MemoryManager._format_messages_for_summary`. -/
def formatMessagesForSummary (playerName : String) (msgs : List Msg) : String :=
  joinSep "\n" ((msgs.map (formatLine playerName)).flatten)

/-! ### The LLM retry wrapper (`llm_client.py`) -/

/-- `llm_client.MAX_RETRIES`. -/
def MAX_RETRIES : Nat := 3

/-- The failure marker recognised by `MemoryManager._compress`
(memory.py line 164). -/
def LLM_FAIL_SENTINEL : String := "[LLM调用失败"

/-- The sentinel failure string built at `llm_client.py` line 79. -/
def failSentinelMsg (lastError : String) : String :=
  "[LLM调用失败(重试3次): " ++ lastError ++ "]"

/-- Iteratively remove `<think>...</think>` blocks, as the regex substitution
in `llm_client._clean_response` does: each step removes the text from the
first `<think>` to the first following `</think>`.  `fuel` bounds the
number of removals; `cleanResponse` supplies `s.length`, which is ample
since every removal consumes at least the two tags. -/
def stripThinkAux : Nat → String → String
  | 0, s => s
  | fuel + 1, s =>
    match s.splitOn "<think>" with
    | [] => s
    | [_] => s
    | pre :: rest =>
      let tail := String.intercalate "<think>" rest
      match tail.splitOn "</think>" with
      | [] => s
      | [_] => s
      | _ :: rest2 => pre ++ stripThinkAux fuel (String.intercalate "</think>" rest2)

/-- `llm_client._clean_response`. -/
def cleanResponse (content : String) : String :=
  pyStrip (stripThinkAux content.length content)

/-- One attempt of the loop in `llm_client._call_with_retry` (lines 53-71).
The underlying API call is the oracle `api : Nat → Except String String`;
an `error` covers a raised exception, empty `choices` or a `None` content
(all of which raise inside the `try`), and the explicit empty-string check
is modelled from lines 68-70. -/
def attemptOnce (api : Nat → Except String String) (k : Nat) : Except String String :=
  match api k with
  | .error e => .error e
  | .ok content =>
    let content := pyStrip content
    if content == "" then .error "API返回了空字符串"
    else .ok (cleanResponse content)

/-- The retry loop of `llm_client._call_with_retry`: `n` attempts remain,
`k` is the index of the next attempt, `lastError` is `last_error`. -/
def callWithRetryAux (api : Nat → Except String String) : Nat → Nat → String → String
  | 0, _, lastError => failSentinelMsg lastError
  | n + 1, k, _lastError =>
    match attemptOnce api k with
    | .ok c => c
    | .error e => callWithRetryAux api n (k + 1) e

/-- `llm_client._call_with_retry`: never raises; returns either a cleaned
successful response or the sentinel failure string. -/
def callWithRetry (api : Nat → Except String String) : String :=
  callWithRetryAux api MAX_RETRIES 0 "None"

/-! ### The memory manager (`src/agents/memory.py`) -/

/-- `config.MEMORY_COMPRESS_THRESHOLD`. -/
def MEMORY_COMPRESS_THRESHOLD : Nat := 30

/-- `config.MEMORY_KEEP_RECENT`. -/
def MEMORY_KEEP_RECENT : Nat := 10

/-- The state of `agents.memory.MemoryManager`: the rolling summary, the
recent raw messages, and the compression counter. -/
structure MemoryManager where
  player_name : String
  summary : String
  recent : List Msg
  compress_count : Nat
deriving Repr, DecidableEq

/-- The summary-request prompt built at memory.py lines 139-146 (the case
with an existing summary). -/
def mergeSummaryPrompt (oldSummary text playerName : String) : String :=
  "以下是之前的记忆摘要：\n---\n" ++ oldSummary ++ "\n---\n\n以下是新增的游戏记录（来自"
    ++ playerName ++ "的视角）：\n---\n" ++ text ++ "\n---\n\n请将旧摘要和新记录合并，生成一份更新的摘要。"

/-- The summary-request prompt built at memory.py lines 147-152 (no existing
summary). -/
def freshSummaryPrompt (text playerName : String) : String :=
  "以下是游戏记录（来自" ++ playerName ++ "的视角）：\n---\n" ++ text
    ++ "\n---\n\n请生成一份结构化摘要。"

/-- The user message sent to the summarizer by `MemoryManager._compress`,
as a function of the state (fold segment = all but the last `keepCount`
entries of `recent`). -/
def compressPrompt (keepCount : Nat) (m : MemoryManager) : String :=
  let text := formatMessagesForSummary m.player_name
    (m.recent.take (m.recent.length - keepCount))
  if m.summary == "" then freshSummaryPrompt text m.player_name
  else mergeSummaryPrompt m.summary text m.player_name

/-- `pat in s` at the start means `strStartsWith` agrees with the source's
`str.startswith` use on sentinel detection. -/
def isFailSentinel (s : String) : Bool :=
  strStartsWith s LLM_FAIL_SENTINEL

/-- `MemoryManager._compress` (memory.py lines 118-172), with the summary
LLM call modelled by the oracle `summarize`.  `recent[:-keep]` and
`recent[-keep:]` are `take (len - keep)` and `drop (len - keep)`. -/
def MemoryManager.compress (keepCount : Nat) (summarize : String → String)
    (m : MemoryManager) : MemoryManager :=
  let oldMessages := m.recent.take (m.recent.length - keepCount)
  let newMessages := m.recent.drop (m.recent.length - keepCount)
  let text := formatMessagesForSummary m.player_name oldMessages
  if pyStrip text == "" then { m with recent := newMessages }
  else
    let newSummary := summarize (compressPrompt keepCount m)
    if isFailSentinel newSummary then { m with recent := newMessages }
    else { m with summary := newSummary, recent := newMessages,
                  compress_count := m.compress_count + 1 }

/-- `MemoryManager.add` (memory.py lines 79-91): append, then compress
synchronously when the recent list has reached the threshold. -/
def MemoryManager.add (threshold keepCount : Nat) (summarize : String → String)
    (m : MemoryManager) (role content : String) : MemoryManager :=
  let m' : MemoryManager := { m with recent := m.recent ++ [(⟨role, content⟩ : Msg)] }
  if threshold ≤ m'.recent.length then m'.compress keepCount summarize else m'

/-- A fresh `MemoryManager` as built by `MemoryManager.__init__`. -/
def MemoryManager.mk0 (playerName : String) : MemoryManager :=
  ⟨playerName, "", [], 0⟩

/-! ### Lemmas about the memory manager -/

/-- Every branch of `_compress` sets `recent` to the keep segment. -/
theorem compress_recent (keepCount : Nat) (summarize : String → String)
    (m : MemoryManager) :
    (m.compress keepCount summarize).recent
      = m.recent.drop (m.recent.length - keepCount) := by
  unfold MemoryManager.compress
  dsimp only
  split
  · rfl
  · split <;> rfl

/-- `_compress` never touches `player_name`. -/
theorem compress_player_name (keepCount : Nat) (summarize : String → String)
    (m : MemoryManager) :
    (m.compress keepCount summarize).player_name = m.player_name := by
  unfold MemoryManager.compress
  dsimp only
  split
  · rfl
  · split <;> rfl

/-- After `_compress`, the keep segment has at most `keepCount` entries. -/
theorem compress_length_le (keepCount : Nat) (summarize : String → String)
    (m : MemoryManager) :
    (m.compress keepCount summarize).recent.length ≤ keepCount := by
  rw [compress_recent, List.length_drop]
  omega

/-- `add` keeps the recent list strictly below the threshold whenever it
was below before, for any configuration with `keepCount < threshold`. -/
theorem add_length_lt (threshold keepCount : Nat) (summarize : String → String)
    (m : MemoryManager) (role content : String)
    (hKT : keepCount < threshold) (hm : m.recent.length < threshold) :
    (m.add threshold keepCount summarize role content).recent.length < threshold := by
  unfold MemoryManager.add
  dsimp only
  split
  · exact lt_of_le_of_lt (compress_length_le _ _ _) hKT
  · rename_i h
    simp only [List.length_append, List.length_cons, List.length_nil] at h ⊢
    omega

/-- Folding `add` over any message list, starting from an empty store. -/
def addAll (threshold keepCount : Nat) (summarize : String → String)
    (init : MemoryManager) (msgs : List (String × String)) : MemoryManager :=
  msgs.foldl (fun m rc => m.add threshold keepCount summarize rc.1 rc.2) init

theorem addAll_length_lt (threshold keepCount : Nat) (summarize : String → String)
    (init : MemoryManager) (msgs : List (String × String))
    (hKT : keepCount < threshold) (hinit : init.recent.length < threshold) :
    (addAll threshold keepCount summarize init msgs).recent.length < threshold := by
  induction msgs generalizing init with
  | nil => exact hinit
  | cons p rest ih =>
    exact ih _ (add_length_lt _ _ _ _ _ _ hKT hinit)

/-- The degraded branch of `_compress`: on a sentinel summary result, the
summary and counter are unchanged and `recent` becomes the keep segment. -/
theorem compress_degrade (keepCount : Nat) (summarize : String → String)
    (m : MemoryManager)
    (hfail : isFailSentinel (summarize (compressPrompt keepCount m)) = true) :
    (m.compress keepCount summarize).summary = m.summary ∧
    (m.compress keepCount summarize).compress_count = m.compress_count ∧
    (m.compress keepCount summarize).recent
      = m.recent.drop (m.recent.length - keepCount) := by
  unfold MemoryManager.compress
  dsimp only
  split_ifs with h1
  · exact ⟨rfl, rfl, rfl⟩
  · exact ⟨rfl, rfl, rfl⟩

/-- The successful branch of `_compress`: non-blank fold text and a
non-sentinel summary result replace the summary, truncate `recent` to the
keep segment and increment the counter. -/
theorem compress_success (keepCount : Nat) (summarize : String → String)
    (m : MemoryManager)
    (htext : (pyStrip (formatMessagesForSummary m.player_name
        (m.recent.take (m.recent.length - keepCount))) == "") = false)
    (hok : isFailSentinel (summarize (compressPrompt keepCount m)) = false) :
    m.compress keepCount summarize
      = { m with summary := summarize (compressPrompt keepCount m),
                 recent := m.recent.drop (m.recent.length - keepCount),
                 compress_count := m.compress_count + 1 } := by
  unfold MemoryManager.compress
  dsimp only
  split_ifs with h1 h2
  · exact absurd h1 (by simp [htext])
  · exact absurd h2 (by simp [hok])
  · rfl

/-- `add` below threshold is a plain append. -/
theorem add_no_compress (threshold keepCount : Nat) (summarize : String → String)
    (m : MemoryManager) (role content : String)
    (h : m.recent.length + 1 < threshold) :
    m.add threshold keepCount summarize role content
      = { m with recent := m.recent ++ [(⟨role, content⟩ : Msg)] } := by
  unfold MemoryManager.add
  dsimp only
  rw [if_neg (by simp; omega)]

/-- `add` at the threshold runs one compression pass on the appended list. -/
theorem add_compress (threshold keepCount : Nat) (summarize : String → String)
    (m : MemoryManager) (role content : String)
    (h : threshold ≤ m.recent.length + 1) :
    m.add threshold keepCount summarize role content
      = MemoryManager.compress keepCount summarize
          { m with recent := m.recent ++ [(⟨role, content⟩ : Msg)] } := by
  unfold MemoryManager.add
  dsimp only
  rw [if_pos (by simp; omega)]

/-! ### Lemmas about the retry wrapper -/

/-- The sentinel failure string always carries the failure marker as a
prefix, whatever the last error text was. -/
theorem sentinel_has_marker (e : String) :
    strStartsWith (failSentinelMsg e) LLM_FAIL_SENTINEL = true := by
  simp only [strStartsWith, failSentinelMsg, String.data_append,
    List.isPrefixOf_iff_prefix]
  exact List.IsPrefix.trans (by decide)
    (List.IsPrefix.trans (List.prefix_append _ _) (List.prefix_append _ _))

/-- The retry loop returns either a successful attempt's cleaned response or
the sentinel failure string; it has no other outcome. -/
theorem callWithRetryAux_shape (api : Nat → Except String String) :
    ∀ n k last,
      (∃ j, j < n ∧ attemptOnce api (k + j) = .ok (callWithRetryAux api n k last)) ∨
      (∃ e, callWithRetryAux api n k last = failSentinelMsg e) := by
  intro n
  induction n with
  | zero => exact fun k last => .inr ⟨last, rfl⟩
  | succ n ih =>
    intro k last
    cases h : attemptOnce api k with
    | ok c =>
      refine .inl ⟨0, Nat.succ_pos n, ?_⟩
      simp [callWithRetryAux, h]
    | error e =>
      have hstep : callWithRetryAux api (n + 1) k last = callWithRetryAux api n (k + 1) e := by
        simp [callWithRetryAux, h]
      rcases ih (k + 1) e with ⟨j, hj, hok⟩ | ⟨e', he'⟩
      · refine .inl ⟨j + 1, by omega, ?_⟩
        rw [show k + (j + 1) = k + 1 + j by omega, hstep]
        exact hok
      · exact .inr ⟨e', by rw [hstep]; exact he'⟩

/-- If every attempt fails, the retry loop ends in the sentinel string. -/
theorem callWithRetryAux_all_fail (api : Nat → Except String String) :
    ∀ n k last, (∀ j, j < n → ∃ e, attemptOnce api (k + j) = .error e) →
      ∃ e, callWithRetryAux api n k last = failSentinelMsg e := by
  intro n
  induction n with
  | zero => exact fun k last _ => ⟨last, rfl⟩
  | succ n ih =>
    intro k last h
    obtain ⟨e, he⟩ := h 0 (Nat.succ_pos n)
    rw [Nat.add_zero] at he
    have hrest := ih (k + 1) e (fun j hj => by
      have hh := h (j + 1) (by omega)
      rwa [show k + (j + 1) = k + 1 + j by omega] at hh)
    simpa [callWithRetryAux, he] using hrest

/-! ### Claim C5: the compression contract of `MemoryManager.add` -/

/-- A constant summarizer used to witness the oracle-parametrised claims. -/
def constSummarize : String → String := fun _ => "摘要A"

/-- The i-th observation message of the C5 example run. -/
def obsMsg : Nat → Msg
  | 1 => ⟨"assistant", "观察1"⟩
  | 2 => ⟨"assistant", "观察2"⟩
  | 3 => ⟨"assistant", "观察3"⟩
  | 4 => ⟨"assistant", "观察4"⟩
  | 5 => ⟨"assistant", "观察5"⟩
  | _ => ⟨"assistant", "观察6"⟩

/-- Intermediate memory states of the C5 example run. -/
def memC5state (indices : List Nat) (summ : String) (cnt : Nat) : MemoryManager :=
  ⟨"玩家1", summ, indices.map obsMsg, cnt⟩

/-- C5: appending is synchronous and, when the recent list reaches the
threshold `T`, one compression pass runs before `add` returns: on a
successful (non-sentinel) summary call the summary is replaced by the
merged result, `recent` becomes exactly the last `K` messages and the
compression counter increases by 1.  In particular with `T = 4`, `K = 2`
the 4th append leaves 2 recent messages, a non-empty summary and counter 1;
the 5th append leaves 3 recent messages with no new compression; the 6th
append triggers a second compression leaving the counter at 2. -/
theorem claim_C5_memory_compression_contract :
    (∀ (threshold keepCount : Nat) (summarize : String → String)
       (m : MemoryManager) (role content : String),
       m.recent.length + 1 = threshold →
       (pyStrip (formatMessagesForSummary m.player_name
          ((m.recent ++ [(⟨role, content⟩ : Msg)]).take
            ((m.recent ++ [(⟨role, content⟩ : Msg)]).length - keepCount))) == "") = false →
       isFailSentinel (summarize (compressPrompt keepCount
          { m with recent := m.recent ++ [(⟨role, content⟩ : Msg)] })) = false →
       m.add threshold keepCount summarize role content
         = { m with
               summary := summarize (compressPrompt keepCount
                 { m with recent := m.recent ++ [(⟨role, content⟩ : Msg)] }),
               recent := (m.recent ++ [(⟨role, content⟩ : Msg)]).drop
                 ((m.recent ++ [(⟨role, content⟩ : Msg)]).length - keepCount),
               compress_count := m.compress_count + 1 }) ∧
    (∀ summarize : String → String,
       (∀ t, isFailSentinel (summarize t) = false ∧ summarize t ≠ "") →
       let step := fun (m : MemoryManager) (c : String) =>
         m.add 4 2 summarize "assistant" c
       let m4 := step (step (step (step (MemoryManager.mk0 "玩家1") "观察1") "观察2") "观察3") "观察4"
       let m5 := step m4 "观察5"
       let m6 := step m5 "观察6"
       m4.recent.length = 2 ∧ m4.summary ≠ "" ∧ m4.compress_count = 1 ∧
       m5.recent.length = 3 ∧ m5.compress_count = 1 ∧
       m6.compress_count = 2 ∧ m6.recent.length = 2) := by
  constructor
  · intro threshold keepCount summarize m role content hlen htext hok
    rw [add_compress _ _ _ _ _ _ (by omega)]
    exact compress_success _ _ _ htext hok
  · intro summarize hgood
    intro step m4 m5 m6
    have s1 : MemoryManager.add 4 2 summarize (MemoryManager.mk0 "玩家1") "assistant" "观察1"
        = memC5state [1] "" 0 :=
      (add_no_compress _ _ _ _ _ _ (by decide)).trans rfl
    have s2 : MemoryManager.add 4 2 summarize (memC5state [1] "" 0) "assistant" "观察2"
        = memC5state [1, 2] "" 0 :=
      (add_no_compress _ _ _ _ _ _ (by decide)).trans rfl
    have s3 : MemoryManager.add 4 2 summarize (memC5state [1, 2] "" 0) "assistant" "观察3"
        = memC5state [1, 2, 3] "" 0 :=
      (add_no_compress _ _ _ _ _ _ (by decide)).trans rfl
    have s4 : MemoryManager.add 4 2 summarize (memC5state [1, 2, 3] "" 0) "assistant" "观察4"
        = ⟨"玩家1", summarize (compressPrompt 2 (memC5state [1, 2, 3, 4] "" 0)),
            [obsMsg 3, obsMsg 4], 1⟩ :=
      (add_compress _ _ _ _ _ _ (by decide)).trans
        ((compress_success 2 summarize (memC5state [1, 2, 3, 4] "" 0)
          (by decide) ((hgood _).1)).trans rfl)
    have h4 : m4 = ⟨"玩家1", summarize (compressPrompt 2 (memC5state [1, 2, 3, 4] "" 0)),
        [obsMsg 3, obsMsg 4], 1⟩ := by
      show MemoryManager.add 4 2 summarize
        (MemoryManager.add 4 2 summarize
          (MemoryManager.add 4 2 summarize
            (MemoryManager.add 4 2 summarize (MemoryManager.mk0 "玩家1")
              "assistant" "观察1") "assistant" "观察2") "assistant" "观察3") "assistant" "观察4" = _
      rw [s1, s2, s3, s4]
    have h5 : m5 = ⟨"玩家1", summarize (compressPrompt 2 (memC5state [1, 2, 3, 4] "" 0)),
        [obsMsg 3, obsMsg 4, obsMsg 5], 1⟩ := by
      show MemoryManager.add 4 2 summarize m4 "assistant" "观察5" = _
      rw [h4]
      exact (add_no_compress _ _ _ _ _ _
        ((by decide : [obsMsg 3, obsMsg 4].length + 1 < 4))).trans rfl
    have h6 : m6 = ⟨"玩家1",
        summarize (compressPrompt 2 (memC5state [3, 4, 5, 6]
          (summarize (compressPrompt 2 (memC5state [1, 2, 3, 4] "" 0))) 1)),
        [obsMsg 5, obsMsg 6], 2⟩ := by
      show MemoryManager.add 4 2 summarize m5 "assistant" "观察6" = _
      rw [h5]
      exact (add_compress _ _ _ _ _ _
        ((by decide : 4 ≤ [obsMsg 3, obsMsg 4, obsMsg 5].length + 1))).trans
        ((compress_success 2 summarize
          (memC5state [3, 4, 5, 6]
            (summarize (compressPrompt 2 (memC5state [1, 2, 3, 4] "" 0))) 1)
          ((by decide : (pyStrip (formatMessagesForSummary "玩家1"
            (([obsMsg 3, obsMsg 4, obsMsg 5, obsMsg 6]).take 2)) == "") = false))
          ((hgood _).1)).trans rfl)
    refine ⟨by rw [h4] <;> rfl, by rw [h4] <;> exact (hgood _).2, by rw [h4] <;> rfl,
      by rw [h5] <;> rfl, by rw [h5] <;> rfl, by rw [h6] <;> rfl, by rw [h6] <;> rfl⟩

/-- Witness for C5 at the constant summarizer. -/
theorem claim_C5_memory_compression_contract_witness :
    let step := fun (m : MemoryManager) (c : String) =>
      m.add 4 2 constSummarize "assistant" c
    let m4 := step (step (step (step (MemoryManager.mk0 "玩家1") "观察1") "观察2") "观察3") "观察4"
    let m5 := step m4 "观察5"
    let m6 := step m5 "观察6"
    m4.recent.length = 2 ∧ m4.summary ≠ "" ∧ m4.compress_count = 1 ∧
    m5.recent.length = 3 ∧ m5.compress_count = 1 ∧
    m6.compress_count = 2 ∧ m6.recent.length = 2 :=
  claim_C5_memory_compression_contract.2 constSummarize
    (fun _ => ⟨(by decide : isFailSentinel "摘要A" = false),
               (by decide : ("摘要A" : String) ≠ "")⟩)

/-! ### Claim C6: retry wrapper never raises; compression degrades atomically -/

/-- C6: the decision-oracle wrapper is total — its only outcomes are a
successful attempt's cleaned response or the sentinel failure string; after
the fixed number of attempts (3) all fail, it returns the sentinel string
(which always carries the `"[LLM调用失败"` prefix); and when a compression
pass receives a sentinel summary result it degrades atomically: summary
unchanged, counter unchanged, recent = keep segment. -/
theorem claim_C6_retry_sentinel_and_degrade :
    (∀ api : Nat → Except String String,
       (∃ j, j < MAX_RETRIES ∧ attemptOnce api j = .ok (callWithRetry api)) ∨
       (∃ e, callWithRetry api = failSentinelMsg e)) ∧
    (∀ api : Nat → Except String String,
       (∀ j, j < MAX_RETRIES → ∃ e, attemptOnce api j = .error e) →
       ∃ e, callWithRetry api = failSentinelMsg e ∧
         strStartsWith (callWithRetry api) LLM_FAIL_SENTINEL = true) ∧
    (∀ (keepCount : Nat) (summarize : String → String) (m : MemoryManager),
       isFailSentinel (summarize (compressPrompt keepCount m)) = true →
       (m.compress keepCount summarize).summary = m.summary ∧
       (m.compress keepCount summarize).compress_count = m.compress_count ∧
       (m.compress keepCount summarize).recent
         = m.recent.drop (m.recent.length - keepCount)) := by
  refine ⟨?_, ?_, ?_⟩
  · intro api
    simpa [callWithRetry] using callWithRetryAux_shape api MAX_RETRIES 0 "None"
  · intro api h
    obtain ⟨e, he⟩ := callWithRetryAux_all_fail api MAX_RETRIES 0 "None"
      (fun j hj => by simpa using h j hj)
    exact ⟨e, by simpa [callWithRetry] using he,
      by rw [show callWithRetry api = failSentinelMsg e from he]
         exact sentinel_has_marker e⟩
  · intro keepCount summarize m hfail
    exact compress_degrade keepCount summarize m hfail

/-- Witness for C6: an API that always raises exhausts its three attempts
and ends in the sentinel string; a sentinel summary result leaves a concrete
memory state degraded. -/
theorem claim_C6_retry_sentinel_and_degrade_witness :
    ((∃ j, j < MAX_RETRIES ∧
        attemptOnce (fun _ => .error "网络错误")
          j = .ok (callWithRetry (fun _ => .error "网络错误"))) ∨
     (∃ e, callWithRetry (fun _ => .error "网络错误") = failSentinelMsg e)) ∧
    (∃ e, callWithRetry (fun _ => .error "网络错误") = failSentinelMsg e ∧
       strStartsWith (callWithRetry (fun _ => .error "网络错误")) LLM_FAIL_SENTINEL = true) ∧
    ((MemoryManager.compress 2 (fun _ => failSentinelMsg "x")
        (memC5state [1, 2, 3, 4] "旧摘要" 7)).summary = "旧摘要" ∧
     (MemoryManager.compress 2 (fun _ => failSentinelMsg "x")
        (memC5state [1, 2, 3, 4] "旧摘要" 7)).compress_count = 7 ∧
     (MemoryManager.compress 2 (fun _ => failSentinelMsg "x")
        (memC5state [1, 2, 3, 4] "旧摘要" 7)).recent
       = (memC5state [1, 2, 3, 4] "旧摘要" 7).recent.drop
           ((memC5state [1, 2, 3, 4] "旧摘要" 7).recent.length - 2)) :=
  ⟨claim_C6_retry_sentinel_and_degrade.1 (fun _ => .error "网络错误"),
   claim_C6_retry_sentinel_and_degrade.2.1 (fun _ => .error "网络错误")
     (fun j _ => ⟨"网络错误", rfl⟩),
   claim_C6_retry_sentinel_and_degrade.2.2 2 (fun _ => failSentinelMsg "x")
     (memC5state [1, 2, 3, 4] "旧摘要" 7) (by decide)⟩

/-! ### Claim C10: the recent list stays bounded below the threshold -/

/-- C10: for any configuration with `0 < K < T`, every `add` call returns
with the recent list strictly shorter than `T` (every compression branch
truncates to the last `K` messages), and hence the recent list stays
below `T` across arbitrarily many appends from an empty store. -/
theorem claim_C10_recent_list_bounded :
    (∀ (threshold keepCount : Nat) (summarize : String → String)
       (m : MemoryManager) (role content : String),
       0 < keepCount → keepCount < threshold →
       m.recent.length < threshold →
       (m.add threshold keepCount summarize role content).recent.length < threshold) ∧
    (∀ (threshold keepCount : Nat) (summarize : String → String)
       (name : String) (msgs : List (String × String)),
       0 < keepCount → keepCount < threshold →
       (addAll threshold keepCount summarize (MemoryManager.mk0 name) msgs).recent.length
         < threshold) := by
  constructor
  · intro threshold keepCount summarize m role content _ hKT hm
    exact add_length_lt threshold keepCount summarize m role content hKT hm
  · intro threshold keepCount summarize name msgs _ hKT
    exact addAll_length_lt threshold keepCount summarize _ msgs hKT
      (by simp [MemoryManager.mk0]; omega)

/-- Witness for C10 at `T = 4`, `K = 2` on a concrete six-message run. -/
theorem claim_C10_recent_list_bounded_witness :
    ((⟨"玩家1", "", [obsMsg 1, obsMsg 2, obsMsg 3], 0⟩ : MemoryManager).add 4 2
        constSummarize "assistant" "观察4").recent.length < 4 ∧
    (addAll 4 2 constSummarize (MemoryManager.mk0 "玩家1")
      [("assistant", "观察1"), ("assistant", "观察2"), ("assistant", "观察3"),
       ("assistant", "观察4"), ("assistant", "观察5"), ("assistant", "观察6")]).recent.length
      < 4 :=
  ⟨claim_C10_recent_list_bounded.1 4 2 constSummarize
      ⟨"玩家1", "", [obsMsg 1, obsMsg 2, obsMsg 3], 0⟩ "assistant" "观察4"
      (by decide) (by decide) (by decide),
   claim_C10_recent_list_bounded.2 4 2 constSummarize "玩家1"
      [("assistant", "观察1"), ("assistant", "观察2"), ("assistant", "观察3"),
       ("assistant", "观察4"), ("assistant", "观察5"), ("assistant", "观察6")]
      (by decide) (by decide)⟩

/-! ### The control layer (`src/server/async_game_runner.py`)

`AsyncGameRunner` holds a state-machine constant (`idle`/`running`/`paused`/
`finished`), an `asyncio.Event` (`true` = set = run, `false` = clear =
pause), a `step_mode` flag and a `stop_requested` flag.  `_checkpoint` is
synchronous up to its `await wait()`; we model its outcome as either
raising `_StopGame`, suspending on the cleared event, or proceeding. -/

/-- The `AsyncGameRunner.STATE_*` constants. -/
inductive RunnerState
  | idle
  | running
  | paused
  | finished
deriving Repr, DecidableEq

/-- The control fields of `AsyncGameRunner`. -/
structure Control where
  state : RunnerState
  pauseEvent : Bool
  stepMode : Bool
  stopRequested : Bool
deriving Repr, DecidableEq

/-- `AsyncGameRunner.pause` (lines 65-69). -/
def Control.pause (c : Control) : Control :=
  if c.state = .running then { c with pauseEvent := false, state := .paused } else c

/-- `AsyncGameRunner.resume` (lines 71-76). -/
def Control.resume (c : Control) : Control :=
  if c.state = .paused then
    { c with stepMode := false, state := .running, pauseEvent := true }
  else c

/-- `AsyncGameRunner.step` (lines 78-83). -/
def Control.step (c : Control) : Control :=
  if c.state = .paused then
    { c with stepMode := true, state := .running, pauseEvent := true }
  else c

/-- `AsyncGameRunner.stop` (lines 85-90). -/
def Control.stop (c : Control) : Control :=
  { c with stopRequested := true,
           pauseEvent := if c.state = .paused then true else c.pauseEvent }

/-- The possible outcomes of one `_checkpoint` call: raise `_StopGame`,
suspend on the cleared pause event (carrying the control state and the
events emitted so far), or proceed. -/
inductive CheckpointResult
  | stopped
  | suspended (c : Control) (events : List String)
  | proceeded (c : Control) (events : List String)
deriving Repr, DecidableEq

/-- `AsyncGameRunner._checkpoint` (lines 96-114). -/
def Control.checkpoint (c : Control) : CheckpointResult :=
  if c.stopRequested then .stopped
  else
    let p := if c.stepMode then
        (({ c with pauseEvent := false, state := .paused } : Control), ["runner_paused"])
      else (c, ([] : List String))
    if p.1.pauseEvent then
      (if p.1.stopRequested then .stopped else .proceeded p.1 p.2)
    else .suspended p.1 p.2

/-! ### Claim C7: the control command state machine -/

/-- C7: `pause` moves `running` to `paused` and is a no-op from any other
state; `resume` moves `paused` to `running` clearing single-step, and is a
no-op otherwise; `step` moves `paused` to `running` with single-step armed,
and is a no-op otherwise; and the first checkpoint after a `step` (with no
stop pending) re-pauses the runner and emits exactly one `runner_paused`
event before suspending — so each `step` buys exactly one checkpoint's
worth of protocol progress. -/
theorem claim_C7_control_commands :
    (∀ c : Control, c.state = .running →
       c.pause = { c with pauseEvent := false, state := .paused }) ∧
    (∀ c : Control, c.state ≠ .running → c.pause = c) ∧
    (∀ c : Control, c.state = .paused →
       c.resume = { c with stepMode := false, state := .running, pauseEvent := true }) ∧
    (∀ c : Control, c.state ≠ .paused → c.resume = c) ∧
    (∀ c : Control, c.state = .paused →
       c.step = { c with stepMode := true, state := .running, pauseEvent := true }) ∧
    (∀ c : Control, c.state ≠ .paused → c.step = c) ∧
    (∀ c : Control, c.state = .paused → c.stopRequested = false →
       c.step.checkpoint
         = .suspended { c with stepMode := true, pauseEvent := false, state := .paused }
             ["runner_paused"]) := by
  refine ⟨?_, ?_, ?_, ?_, ?_, ?_, ?_⟩
  · intro c h; simp [Control.pause, h]
  · intro c h; simp [Control.pause, h]
  · intro c h; simp [Control.resume, h]
  · intro c h; simp [Control.resume, h]
  · intro c h; simp [Control.step, h]
  · intro c h; simp [Control.step, h]
  · intro c h hstop
    simp [Control.step, Control.checkpoint, h, hstop]

/-- Witness for C7 at concrete control states. -/
theorem claim_C7_control_commands_witness :
    ((⟨.running, true, false, false⟩ : Control).pause
       = ⟨.paused, false, false, false⟩) ∧
    ((⟨.idle, true, false, false⟩ : Control).pause = ⟨.idle, true, false, false⟩) ∧
    ((⟨.paused, false, true, false⟩ : Control).resume
       = ⟨.running, true, false, false⟩) ∧
    ((⟨.running, true, false, false⟩ : Control).resume = ⟨.running, true, false, false⟩) ∧
    ((⟨.paused, false, false, false⟩ : Control).step
       = ⟨.running, true, true, false⟩) ∧
    ((⟨.idle, true, false, false⟩ : Control).step = ⟨.idle, true, false, false⟩) ∧
    ((⟨.paused, false, false, false⟩ : Control).step.checkpoint
       = .suspended ⟨.paused, false, true, false⟩ ["runner_paused"]) := by
  have h := claim_C7_control_commands
  refine ⟨?_, ?_, ?_, ?_, ?_, ?_, ?_⟩
  · exact (h.1 ⟨.running, true, false, false⟩ rfl).trans rfl
  · exact h.2.1 ⟨.idle, true, false, false⟩ (by decide)
  · exact (h.2.2.1 ⟨.paused, false, true, false⟩ rfl).trans rfl
  · exact h.2.2.2.1 ⟨.running, true, false, false⟩ (by decide)
  · exact (h.2.2.2.2.1 ⟨.paused, false, false, false⟩ rfl).trans rfl
  · exact h.2.2.2.2.2.1 ⟨.idle, true, false, false⟩ (by decide)
  · exact (h.2.2.2.2.2.2 ⟨.paused, false, false, false⟩ rfl rfl).trans rfl

/-! ### Game configuration (`src/config.py`) -/

/-- `config.PLAYER_COUNT`. -/
def PLAYER_COUNT : Nat := 6

/-- `config.MISSION_TEAM_SIZES`. -/
def MISSION_TEAM_SIZES : List Nat := [2, 3, 4, 3, 4]

/-- `config.MISSION_FAIL_REQUIRED`. -/
def MISSION_FAIL_REQUIRED : List Nat := [1, 1, 1, 1, 1]

/-- `config.MAX_TEAM_VOTES`. -/
def MAX_TEAM_VOTES : Nat := 5

/-! ### Data model (`src/models/player.py`, `src/models/game_state.py`) -/

/-- `models.player.Player`, with the role fields the engine consults
(`role.team` as `is_good`, `role.is_assassin`, `role.role_id`) inlined. -/
structure Player where
  player_id : Nat
  is_good : Bool
  role_id : String
  is_assassin : Bool
  is_leader : Bool
  known_allies : List Nat
deriving Repr, DecidableEq

instance : Inhabited Player := ⟨⟨0, true, "", false, false, []⟩⟩

/-- `models.game_state.MissionRecord`.  The Python dicts `team_votes`,
`mission_votes` and `speeches` are modelled as association lists in
insertion order. -/
structure MissionRecord where
  round_num : Nat
  team_leader_id : Nat
  team_members : List Nat
  team_votes : List (Nat × Bool)
  mission_votes : List (Nat × Bool)
  success : Option Bool
  speeches : List (Nat × String)
deriving Repr, DecidableEq

/-- `models.game_state.GameState`. -/
structure GameState where
  players : List Player
  current_round : Nat
  current_leader_idx : Nat
  consecutive_rejects : Nat
  mission_results : List Bool
  mission_records : List MissionRecord
  proposed_team : List Nat
  game_over : Bool
  winner : Option String
  end_reason : String
deriving Repr, DecidableEq

/-- `GameState.good_wins_count`. -/
def GameState.good_wins_count (st : GameState) : Nat :=
  (st.mission_results.filter (fun r => r)).length

/-- `GameState.evil_wins_count`. -/
def GameState.evil_wins_count (st : GameState) : Nat :=
  (st.mission_results.filter (fun r => !r)).length

/-- `GameState.get_player` (list indexing). -/
def GameState.get_player (st : GameState) (pid : Nat) : Player :=
  st.players.getD pid default

/-- `GameState.next_leader`: advance the leader index cyclically and
refresh the `is_leader` flags. -/
def GameState.next_leader (st : GameState) : GameState :=
  let idx := (st.current_leader_idx + 1) % st.players.length
  { st with current_leader_idx := idx,
            players := st.players.map (fun p => { p with is_leader := p.player_id == idx }) }

/-! ### List helpers mirroring Python idioms -/

/-- `list(dict.fromkeys(xs))` — de-duplicate keeping first occurrences.
Also used for `list(set(xs))`, whose iteration order Python leaves
unspecified; no claim below depends on the order, only on membership,
distinctness and length. -/
def dedupFirstAux : List Nat → List Nat → List Nat
  | _, [] => []
  | seen, x :: xs =>
    if x ∈ seen then dedupFirstAux seen xs
    else x :: dedupFirstAux (x :: seen) xs

/-- See `dedupFirstAux`. -/
def dedupFirst (l : List Nat) : List Nat :=
  dedupFirstAux [] l

theorem dedupFirstAux_subset (l : List Nat) :
    ∀ seen x, x ∈ dedupFirstAux seen l → x ∈ l := by
  induction l with
  | nil => intro seen x h; simp [dedupFirstAux] at h
  | cons a rest ih =>
    intro seen x h
    unfold dedupFirstAux at h
    split at h
    · exact List.mem_cons_of_mem a (ih seen x h)
    · rcases List.mem_cons.mp h with h1 | h2
      · exact h1 ▸ List.mem_cons_self a rest
      · exact List.mem_cons_of_mem a (ih _ x h2)

theorem dedupFirstAux_not_mem_seen (l : List Nat) :
    ∀ seen x, x ∈ dedupFirstAux seen l → x ∉ seen := by
  induction l with
  | nil => intro seen x h; simp [dedupFirstAux] at h
  | cons a rest ih =>
    intro seen x h
    unfold dedupFirstAux at h
    split at h
    · exact ih seen x h
    · rcases List.mem_cons.mp h with h1 | h2
      · subst h1; assumption
      · intro hx
        exact ih _ x h2 (List.mem_cons_of_mem a hx)

theorem dedupFirstAux_nodup (l : List Nat) :
    ∀ seen, (dedupFirstAux seen l).Nodup := by
  induction l with
  | nil => intro seen; simp [dedupFirstAux]
  | cons a rest ih =>
    intro seen
    unfold dedupFirstAux
    split
    · exact ih seen
    · refine List.nodup_cons.mpr ⟨?_, ih (a :: seen)⟩
      intro hmem
      exact dedupFirstAux_not_mem_seen rest (a :: seen) a hmem (List.mem_cons_self a seen)

theorem dedupFirstAux_length_le (l : List Nat) :
    ∀ seen, (dedupFirstAux seen l).length ≤ l.length := by
  induction l with
  | nil => intro seen; simp [dedupFirstAux]
  | cons a rest ih =>
    intro seen
    unfold dedupFirstAux
    split
    · exact Nat.le_succ_of_le (ih seen)
    · simpa using Nat.succ_le_succ (ih (a :: seen))

theorem dedupFirst_nodup (l : List Nat) : (dedupFirst l).Nodup :=
  dedupFirstAux_nodup l []

theorem dedupFirst_subset (l : List Nat) : ∀ x ∈ dedupFirst l, x ∈ l :=
  fun x h => dedupFirstAux_subset l [] x h

theorem dedupFirst_length_le (l : List Nat) : (dedupFirst l).length ≤ l.length :=
  dedupFirstAux_length_le l []

/-- `f r` applied to the last element only — the aliasing of the Python
`record` object, which is the last element of `state.mission_records`
when the mission phase mutates it. -/
def updateLast (f : MissionRecord → MissionRecord) : List MissionRecord → List MissionRecord
  | [] => []
  | [r] => [f r]
  | r :: r' :: rs => r :: updateLast f (r' :: rs)

theorem updateLast_append (f : MissionRecord → MissionRecord)
    (pre : List MissionRecord) (r : MissionRecord) :
    updateLast f (pre ++ [r]) = pre ++ [f r] := by
  induction pre with
  | nil => rfl
  | cons a rest ih =>
    cases rest with
    | nil => rfl
    | cons b rs => simpa [updateLast] using ih

/-! ### The random-padding loop of `execute_team_phase` and `_parse_team`

`random.choice(candidates)` is modelled by an arbitrary index stream
`rnd : Nat → Nat`: step `k` picks `candidates[rnd k % len(candidates)]`.
`none` models the `IndexError` that `random.choice` raises on an empty
candidate list — the correction contract requires this never to happen. -/
def padLoop (rnd : Nat → Nat) : Nat → Nat → List Nat → List Nat → Option (List Nat)
  | _, 0, team, _ => some team
  | k, need + 1, team, cands =>
    match cands with
    | [] => none
    | c0 :: _ =>
      let c := cands.getD (rnd k % cands.length) c0
      padLoop rnd (k + 1) need (team ++ [c]) (cands.erase c)

theorem padLoop_spec (rnd : Nat → Nat) :
    ∀ (need k : Nat) (team cands : List Nat),
      team.Nodup → cands.Nodup → (∀ x ∈ cands, x ∉ team) →
      need ≤ cands.length →
      ∃ res, padLoop rnd k need team cands = some res ∧
        res.length = team.length + need ∧ res.Nodup ∧
        (∀ x ∈ res, x ∈ team ∨ x ∈ cands) := by
  intro need
  induction need with
  | zero =>
    intro k team cands ht _ _ _
    exact ⟨team, rfl, by simp, ht, fun x hx => .inl hx⟩
  | succ n ih =>
    intro k team cands ht hc hdisj hlen
    match cands with
    | [] => simp at hlen
    | c0 :: cs =>
      set c := (c0 :: cs).getD (rnd k % (c0 :: cs).length) c0 with hc_def
      have hlt : rnd k % (c0 :: cs).length < (c0 :: cs).length :=
        Nat.mod_lt _ (by simp)
      have hcmem : c ∈ c0 :: cs := by
        rw [hc_def, List.getD, List.get?_eq_get hlt, Option.getD_some]
        exact List.get_mem _ _ _
      have hteam' : (team ++ [c]).Nodup := by
        simp only [List.nodup_append, List.nodup_cons, List.nodup_nil]
        exact ⟨ht, by simp, by simpa using fun hmem => hdisj c hcmem hmem⟩
      have hcands' : ((c0 :: cs).erase c).Nodup := hc.erase c
      have hdisj' : ∀ x ∈ (c0 :: cs).erase c, x ∉ team ++ [c] := by
        intro x hx
        have hxc : x ∈ c0 :: cs := List.mem_of_mem_erase hx
        have hxne : x ≠ c := by
          intro hEq
          subst hEq
          exact (List.Nodup.not_mem_erase hc) hx
        simp only [List.mem_append, List.mem_singleton]
        rintro (hmem | hmem)
        · exact hdisj x hxc hmem
        · exact hxne hmem
      have hlen' : n ≤ ((c0 :: cs).erase c).length := by
        rw [List.length_erase_of_mem hcmem]
        simp only [List.length_cons] at hlen ⊢
        omega
      obtain ⟨res, hres, hlenres, hnodup, hsub⟩ :=
        ih (k + 1) (team ++ [c]) ((c0 :: cs).erase c) hteam' hcands' hdisj' hlen'
      refine ⟨res, ?_, ?_, hnodup, ?_⟩
      · exact hres
      · rw [hlenres]; simp; omega
      · intro x hx
        rcases hsub x hx with hmem | hmem
        · rcases List.mem_append.mp hmem with h1 | h1
          · exact .inl h1
          · exact .inr (by rw [List.mem_singleton.mp h1]; exact hcmem)
        · exact .inr (List.mem_of_mem_erase hmem)

/-! ### Free-text parsing of oracle responses (`src/agents/agent.py`)

The regex/JSON machinery of `_parse_team`, `_parse_vote`, `_parse_mission`
and `_parse_target` is modelled from the structured data it extracts, which
is the interface the spec gives it ("the text-parsing heuristics themselves
are out of core scope"): the value of the JSON field when the first
`{...}` block decodes (with `none` for no match / decode error / a
non-numeric coercion error), and the list of extracted digit groups
(`玩家(\d+)` falling back to `\d+`). -/

/-- Python's `str.lower()`. -/
def pyLower (s : String) : String :=
  ⟨s.data.map Char.toLower⟩

/-- What `_parse_team` extracts from a free-text team response. -/
structure TeamResponse where
  jsonTeam : Option (List Int)
  nums : List Nat
deriving Repr, DecidableEq

/-- The number-extraction fallback and the final random fallback of
`_parse_team` (agent.py lines 265-281). -/
def parseTeamFallback (resp : TeamResponse) (rnd : Nat → Nat)
    (selfId teamSize : Nat) : Option (List Nat) :=
  let team := dedupFirst ((resp.nums.filter (fun n => 1 ≤ n && n ≤ PLAYER_COUNT)).map
    (fun n => n - 1))
  if teamSize ≤ team.length then some (team.take teamSize)
  else
    padLoop rnd 0 (teamSize - 1) [selfId]
      ((List.range PLAYER_COUNT).filter (fun i => i != selfId))

/-- `Agent._parse_team` (agent.py lines 247-281): JSON branch with
validation, then number extraction, then leader-plus-random fallback. -/
def parse_team (resp : TeamResponse) (rnd : Nat → Nat)
    (selfId teamSize : Nat) : Option (List Nat) :=
  match resp.jsonTeam with
  | some ts =>
    let team := (ts.map (fun t => t - 1)).filter
      (fun t => decide (0 ≤ t) && decide (t < (PLAYER_COUNT : Int)))
    let team := dedupFirst (team.map Int.toNat)
    if team.length = teamSize then some team
    else parseTeamFallback resp rnd selfId teamSize
  | none => parseTeamFallback resp rnd selfId teamSize

/-- The team-validity correction of `execute_team_phase`
(team_phase.py lines 57-67): drop out-of-range ids, de-duplicate keeping
order, and when the size is short of `teamSize` pad with random fresh
candidates.  (When the deduplicated list is strictly longer than
`teamSize` the `while` loop body never runs and the oversized team is kept,
exactly as in the source.) -/
def fixTeam (rnd : Nat → Nat) (teamSize : Nat) (raw : List Int) : Option (List Nat) :=
  let valid := (raw.filter (fun t => decide (0 ≤ t) && decide (t < (6 : Int)))).map Int.toNat
  let team := dedupFirst valid
  if team.length = teamSize then some team
  else
    let cands := (List.range 6).filter (fun i => decide (i ∉ team))
    padLoop rnd 0 (teamSize - team.length) team cands

theorem dedupFirst_lt_of_forall (l : List Nat) (bound : Nat)
    (h : ∀ x ∈ l, x < bound) : ∀ x ∈ dedupFirst l, x < bound :=
  fun x hx => h x (dedupFirst_subset l x hx)

/-- The correction of `execute_team_phase` never fails and returns a
duplicate-free team of exactly `teamSize` ids in `0..5`, whenever the
deduplicated valid input is not longer than `teamSize ≤ 6`. -/
theorem fixTeam_spec (rnd : Nat → Nat) (teamSize : Nat) (raw : List Int)
    (hsize : teamSize ≤ 6)
    (hlen : (dedupFirst ((raw.filter
      (fun t => decide (0 ≤ t) && decide (t < (6 : Int)))).map Int.toNat)).length ≤ teamSize) :
    ∃ team, fixTeam rnd teamSize raw = some team ∧
      team.length = teamSize ∧ team.Nodup ∧ ∀ x ∈ team, x < 6 := by
  unfold fixTeam
  set valid := (raw.filter (fun t => decide (0 ≤ t) && decide (t < (6 : Int)))).map Int.toNat
    with hvalid
  set t2 := dedupFirst valid with ht2
  have ht2nodup : t2.Nodup := dedupFirst_nodup valid
  have ht2bound : ∀ x ∈ t2, x < 6 := by
    intro x hx
    have hxv : x ∈ valid := dedupFirst_subset valid x hx
    rw [hvalid] at hxv
    obtain ⟨t, htmem, htx⟩ := List.mem_map.mp hxv
    have := List.mem_filter.mp htmem
    have h2 := this.2
    simp only [Bool.and_eq_true, decide_eq_true_eq] at h2
    omega
  by_cases hEq : t2.length = teamSize
  · refine ⟨t2, ?_, hEq, ht2nodup, ht2bound⟩
    rw [if_pos hEq]
  · rw [if_neg hEq]
    set cands := (List.range 6).filter (fun i => decide (i ∉ t2)) with hcands
    have hcnodup : cands.Nodup := List.Nodup.filter _ (List.nodup_range 6)
    have hcdisj : ∀ x ∈ cands, x ∉ t2 := by
      intro x hx
      have := (List.mem_filter.mp hx).2
      simpa using this
    have hclen : teamSize - t2.length ≤ cands.length := by
      have htotal := List.length_eq_length_filter_add
        (l := List.range 6) (fun i => decide (i ∉ t2))
      have hle : ((List.range 6).filter (fun i => !(decide (i ∉ t2)))).length ≤ t2.length := by
        have hnd : ((List.range 6).filter (fun i => !(decide (i ∉ t2)))).Nodup :=
          List.Nodup.filter _ (List.nodup_range 6)
        have hsub2 : ((List.range 6).filter (fun i => !(decide (i ∉ t2)))) ⊆ t2 := by
          intro x hx
          have := (List.mem_filter.mp hx).2
          simpa using this
        exact (hnd.subperm hsub2).length_le
      rw [List.length_range] at htotal
      rw [hcands]
      omega
    obtain ⟨res, hres, hlenres, hnodup, hsub⟩ :=
      padLoop_spec rnd (teamSize - t2.length) 0 t2 cands ht2nodup hcnodup hcdisj hclen
    refine ⟨res, hres, ?_, hnodup, ?_⟩
    · rw [hlenres]; omega
    · intro x hx
      rcases hsub x hx with h | h
      · exact ht2bound x h
      · have := (List.mem_filter.mp (hcands ▸ h)).1
        exact List.mem_range.mp this

/-- A nodup list contained in a singleton has length at most 1. -/
theorem nodup_subset_singleton_length_le (l : List Nat) (a : Nat)
    (hnd : l.Nodup) (hsub : l ⊆ [a]) : l.length ≤ 1 :=
  (hnd.subperm hsub).length_le

/-- `_parse_team` always returns exactly `teamSize` ids (for
`1 ≤ teamSize ≤ 6`), without duplicates, each either below 6 or equal to
the proposing agent's own id (which enters through the final fallback). -/
theorem parseTeamFallback_spec (resp : TeamResponse) (rnd : Nat → Nat)
    (selfId teamSize : Nat) (h1 : 1 ≤ teamSize) (h6 : teamSize ≤ 6) :
    ∃ p, parseTeamFallback resp rnd selfId teamSize = some p ∧
      p.length = teamSize ∧ p.Nodup ∧ ∀ x ∈ p, x < 6 ∨ x = selfId := by
  unfold parseTeamFallback
  set team := dedupFirst ((resp.nums.filter (fun n => 1 ≤ n && n ≤ PLAYER_COUNT)).map
    (fun n => n - 1)) with hteam
  have hnodup : team.Nodup := dedupFirst_nodup _
  have hbound : ∀ x ∈ team, x < 6 := by
    intro x hx
    have hxm := dedupFirst_subset _ x hx
    obtain ⟨n, hn, hnx⟩ := List.mem_map.mp hxm
    have := (List.mem_filter.mp hn).2
    simp only [Bool.and_eq_true, decide_eq_true_eq] at this
    have : n ≤ PLAYER_COUNT := this.2
    simp only [PLAYER_COUNT] at this
    omega
  by_cases hlen : teamSize ≤ team.length
  · rw [if_pos hlen]
    refine ⟨team.take teamSize, rfl, ?_, ?_, ?_⟩
    · rw [List.length_take]; omega
    · exact hnodup.sublist (List.take_sublist _ _)
    · intro x hx
      exact .inl (hbound x ((List.take_subset _ _) hx))
  · rw [if_neg hlen]
    set cands := (List.range PLAYER_COUNT).filter (fun i => i != selfId) with hcands
    have hcnodup : cands.Nodup := List.Nodup.filter _ (List.nodup_range _)
    have hcdisj : ∀ x ∈ cands, x ∉ [selfId] := by
      intro x hx
      have := (List.mem_filter.mp hx).2
      simpa using this
    have hclen : teamSize - 1 ≤ cands.length := by
      have htotal := List.length_eq_length_filter_add
        (l := List.range PLAYER_COUNT) (fun i => i != selfId)
      have hle : ((List.range PLAYER_COUNT).filter (fun i => !(i != selfId))).length ≤ 1 := by
        refine nodup_subset_singleton_length_le _ selfId
          (List.Nodup.filter _ (List.nodup_range _)) ?_
        intro x hx
        have := (List.mem_filter.mp hx).2
        simp only [bne, Bool.not_not, beq_iff_eq] at this
        simp [this]
      rw [List.length_range] at htotal
      rw [hcands]
      simp only [PLAYER_COUNT] at htotal hle ⊢
      omega
    obtain ⟨res, hres, hlenres, hnodupres, hsub⟩ :=
      padLoop_spec rnd (teamSize - 1) 0 [selfId] cands (by simp) hcnodup hcdisj hclen
    refine ⟨res, hres, ?_, hnodupres, ?_⟩
    · rw [hlenres]; simp; omega
    · intro x hx
      rcases hsub x hx with h | h
      · exact .inr (List.mem_singleton.mp h)
      · refine .inl ?_
        have := (List.mem_filter.mp (hcands ▸ h)).1
        simpa [PLAYER_COUNT] using List.mem_range.mp this

/-- `Agent._parse_team` result contract. -/
theorem parse_team_spec (resp : TeamResponse) (rnd : Nat → Nat)
    (selfId teamSize : Nat) (h1 : 1 ≤ teamSize) (h6 : teamSize ≤ 6) :
    ∃ p, parse_team resp rnd selfId teamSize = some p ∧
      p.length = teamSize ∧ p.Nodup ∧ ∀ x ∈ p, x < 6 ∨ x = selfId := by
  cases hj : resp.jsonTeam with
  | none =>
    have hfb := parseTeamFallback_spec resp rnd selfId teamSize h1 h6
    simpa [parse_team, hj] using hfb
  | some ts =>
    by_cases hEq : (dedupFirst ((((ts.map (fun t => t - 1)).filter
        (fun t => decide (0 ≤ t) && decide (t < (PLAYER_COUNT : Int)))).map
          Int.toNat))).length = teamSize
    · refine ⟨_, ?_, hEq, dedupFirst_nodup _, ?_⟩
      · simp only [parse_team, hj, hEq, if_pos]
      · intro x hx
        have hxm := dedupFirst_subset _ x hx
        obtain ⟨t, ht, htx⟩ := List.mem_map.mp hxm
        have := (List.mem_filter.mp ht).2
        simp only [Bool.and_eq_true, decide_eq_true_eq, PLAYER_COUNT] at this
        omega
    · have hfb := parseTeamFallback_spec resp rnd selfId teamSize h1 h6
      simpa [parse_team, hj, hEq] using hfb

/-! ### The team phase (`src/engine/team_phase.py`) -/

/-- `execute_team_phase` (team_phase.py lines 9-78): the leader's oracle
response is parsed by `_parse_team` (= `Agent.propose_team`), the result is
corrected for validity, and the corrected team is stored in
`state.proposed_team`. -/
def execute_team_phase (resp : TeamResponse) (rndA rndB : Nat → Nat)
    (st : GameState) : Option (GameState × List Nat) :=
  let teamSize := MISSION_TEAM_SIZES.getD st.current_round 0
  match parse_team resp rndA st.current_leader_idx teamSize with
  | none => none
  | some proposed =>
    match fixTeam rndB teamSize (proposed.map Int.ofNat) with
    | none => none
    | some team => some ({ st with proposed_team := team }, team)

/-- In rounds 0-4 the configured team size is between 1 and 6. -/
theorem teamSize_bounds (r : Nat) (h : r < 5) :
    1 ≤ MISSION_TEAM_SIZES.getD r 0 ∧ MISSION_TEAM_SIZES.getD r 0 ≤ 6 := by
  interval_cases r <;> decide

/-- The team phase never fails and stores a duplicate-free team of exactly
the scheduled size, all ids in `0..5`, for every oracle response and every
random stream. -/
theorem execute_team_phase_spec (resp : TeamResponse) (rndA rndB : Nat → Nat)
    (st : GameState) (h : st.current_round < 5) :
    ∃ team, execute_team_phase resp rndA rndB st
        = some ({ st with proposed_team := team }, team) ∧
      team.length = MISSION_TEAM_SIZES.getD st.current_round 0 ∧
      team.Nodup ∧ ∀ x ∈ team, x < 6 := by
  obtain ⟨hK1, hK6⟩ := teamSize_bounds st.current_round h
  obtain ⟨p, hp, hplen, hpnodup, hpbound⟩ :=
    parse_team_spec resp rndA st.current_leader_idx (MISSION_TEAM_SIZES.getD st.current_round 0)
      hK1 hK6
  have hlenfix : (dedupFirst (((p.map Int.ofNat).filter
      (fun t => decide (0 ≤ t) && decide (t < (6 : Int)))).map Int.toNat)).length
      ≤ MISSION_TEAM_SIZES.getD st.current_round 0 := by
    calc (dedupFirst (((p.map Int.ofNat).filter
          (fun t => decide (0 ≤ t) && decide (t < (6 : Int)))).map Int.toNat)).length
        ≤ (((p.map Int.ofNat).filter
            (fun t => decide (0 ≤ t) && decide (t < (6 : Int)))).map Int.toNat).length :=
          dedupFirst_length_le _
      _ ≤ (p.map Int.ofNat).length := by
          rw [List.length_map]
          exact List.length_filter_le _ _
      _ = p.length := List.length_map _ _
      _ = _ := hplen
  obtain ⟨team, hteam, hlen, hnodup, hbound⟩ :=
    fixTeam_spec rndB (MISSION_TEAM_SIZES.getD st.current_round 0) (p.map Int.ofNat) hK6 hlenfix
  refine ⟨team, ?_, hlen, hnodup, hbound⟩
  simp only [execute_team_phase, hp, hteam]

/-! ### The discussion and vote phases (`src/engine/vote_phase.py`) -/

/-- The speaking order of `execute_discussion` (vote_phase.py lines 29-34):
start at `(leader+1) mod n`, proceed cyclically, leader last. -/
def speakingOrder (leaderIdx n : Nat) : List Nat :=
  ((List.range (n - 1)).map (fun i => (leaderIdx + i + 1) % n)) ++ [leaderIdx]

/-- `execute_discussion`: collect one statement per player in speaking
order into `record.speeches` (the oracle `speech` gives each player's
statement). -/
def execute_discussion (speech : Nat → String) (st : GameState)
    (record : MissionRecord) : MissionRecord :=
  let sp := (speakingOrder st.current_leader_idx st.players.length).map
    (fun pid => (pid, speech pid))
  { record with speeches := sp }

/-- What `_parse_vote` extracts from a free-text vote response: the
`"vote"` JSON field when the first `{...}` block decodes, and whether the
raw text contains an approval / rejection keyword. -/
structure VoteResponse where
  jsonVote : Option String
  hasApproveWord : Bool
  hasRejectWord : Bool
deriving Repr, DecidableEq

/-- `Agent._parse_vote` (agent.py lines 283-300): JSON field comparison,
then keyword fallback, then the team default (good approves, evil
rejects). -/
def parse_vote (resp : VoteResponse) (isGood : Bool) : Bool :=
  match resp.jsonVote with
  | some v => pyLower v == "approve"
  | none =>
    if resp.hasApproveWord then true
    else if resp.hasRejectWord then false
    else isGood

/-- Number of approve votes among players `0..n-1`. -/
def approveCount (votes : Nat → Bool) (n : Nat) : Nat :=
  ((List.range n).filter (fun pid => votes pid)).length

/-- Number of reject votes among players `0..n-1`. -/
def rejectCount (votes : Nat → Bool) (n : Nat) : Nat :=
  ((List.range n).filter (fun pid => !votes pid)).length

/-- `execute_vote` (vote_phase.py lines 74-163): every player votes once,
the votes are recorded in `record.team_votes`, and the team is approved
iff strictly more players approve than reject. -/
def execute_vote (votes : Nat → Bool) (st : GameState)
    (record : MissionRecord) : MissionRecord × Bool :=
  let n := st.players.length
  let tv := (List.range n).map (fun pid => (pid, votes pid))
  ({ record with team_votes := tv }, decide (rejectCount votes n < approveCount votes n))

/-! ### The mission phase (`src/engine/mission_phase.py`, `Agent.mission_action`) -/

/-- What `_parse_mission` extracts from a free-text mission response. -/
structure MissionResponse where
  jsonAction : Option String
  hasFailWord : Bool
deriving Repr, DecidableEq

/-- `Agent._parse_mission` (agent.py lines 302-315). -/
def parse_mission (resp : MissionResponse) : Bool :=
  match resp.jsonAction with
  | some a => pyLower a == "success"
  | none => !resp.hasFailWord

/-- `Agent.mission_action` (agent.py lines 192-217): a good player's vote
is `True` unconditionally — the oracle is not even consulted; an evil
player's vote is parsed from the oracle response. -/
def mission_action (p : Player) (resp : MissionResponse) : Bool :=
  if p.is_good then true else parse_mission resp

/-- `execute_mission` (mission_phase.py lines 9-95): only the members of
`state.proposed_team` act; the mission succeeds iff the number of fail
votes is strictly below the configured per-round requirement; the result
is recorded on the current (last) record and appended to
`state.mission_results`. -/
def execute_mission (resp : Nat → MissionResponse) (st : GameState) : GameState :=
  let failRequired := MISSION_FAIL_REQUIRED.getD st.current_round 0
  let votes := st.proposed_team.map
    (fun pid => (pid, mission_action (st.get_player pid) (resp pid)))
  let failCount := (votes.filter (fun v => !v.2)).length
  let ok := decide (failCount < failRequired)
  { st with
      mission_records := updateLast
        (fun r => { r with mission_votes := votes, success := some ok })
        st.mission_records,
      mission_results := st.mission_results ++ [ok] }

/-! ### The assassin phase (`src/engine/assassin_phase.py`, `Agent._parse_target`) -/

/-- What `_parse_target` extracts from a free-text assassination
response. -/
structure TargetResponse where
  jsonTarget : Option Int
  nums : List Nat
deriving Repr, DecidableEq

/-- The range-and-not-self validation of the JSON branch of
`_parse_target` (agent.py lines 322-326), on the raw 1-based value. -/
def intToTarget (selfId : Nat) (t : Int) : Option Nat :=
  if 0 ≤ t - 1 ∧ t - 1 < (PLAYER_COUNT : Int) ∧ (t - 1).toNat ≠ selfId then
    some (t - 1).toNat
  else none

/-- The number-scan fallback of `_parse_target` (agent.py lines 329-336):
first extracted number that is a valid non-self id. -/
def firstValidNum (selfId : Nat) : List Nat → Option Nat
  | [] => none
  | n :: rest =>
    if 1 ≤ n ∧ n - 1 < PLAYER_COUNT ∧ n - 1 ≠ selfId then some (n - 1)
    else firstValidNum selfId rest

/-- `Agent._parse_target` (agent.py lines 317-340). -/
def parse_target (selfId : Nat) (allies : List Nat) (resp : TargetResponse)
    (rnd : Nat) : Nat :=
  let fallback :=
    match firstValidNum selfId resp.nums with
    | some tid => tid
    | none =>
      let cands := (List.range PLAYER_COUNT).filter
        (fun i => i != selfId && !(allies.contains i))
      cands.getD (rnd % cands.length) 0
  match resp.jsonTarget with
  | some t =>
    match intToTarget selfId t with
    | some tid => tid
    | none => fallback
  | none => fallback

/-- The outcome dict of `execute_assassin_phase`. -/
structure AssassinResult where
  merlin_killed : Bool
  assassin_id : Int
  target_id : Int
deriving Repr, DecidableEq

/-- `execute_assassin_phase` (assassin_phase.py lines 8-119): locate the
assassin and Merlin (last scan match, as the source loop overwrites),
parse the assassin's chosen target, re-draw a random good player whenever
the choice hit the assassin itself or Morgana, and report whether the
final target is Merlin.  (Morgana's advice text does not influence the
outcome and is omitted.) -/
def execute_assassin_phase (resp : TargetResponse) (rndParse rndRepick : Nat)
    (st : GameState) : AssassinResult :=
  match (st.players.filter (fun p => p.is_assassin)).getLast?,
        (st.players.filter (fun p => p.role_id == "merlin")).getLast? with
  | some assassin, some merlinP =>
    let morgana := st.players.find? (fun p => p.role_id == "morgana")
    let target0 := parse_target assassin.player_id assassin.known_allies resp rndParse
    let target :=
      if target0 == assassin.player_id
          || (match morgana with
              | some m => target0 == m.player_id
              | none => false) then
        let cands := (st.players.filter (fun p => p.is_good)).map (fun p => p.player_id)
        cands.getD (rndRepick % cands.length) 0
      else target0
    ⟨target == merlinP.player_id, Int.ofNat assassin.player_id, Int.ofNat target⟩
  | _, _ => ⟨false, -1, -1⟩

/-! ### End-of-round win resolution (`GameEngine.run`, lines 248-286) -/

/-- engine line 235. -/
def END_REASON_MAX_REJECTS : String := "连续5次组队被否决，邪恶阵营获胜！"

/-- engine line 262. -/
def END_REASON_MERLIN_KILLED : String := "梅林被刺杀！邪恶阵营逆转获胜！"

/-- engine line 267. -/
def END_REASON_GOOD_WIN : String := "正义阵营完成三次任务且梅林存活！正义阵营获胜！"

/-- engine line 278. -/
def END_REASON_EVIL_3FAILS : String := "三次任务失败！邪恶阵营获胜！"

/-- The win checks after a mission (engine lines 253-286): 3 good wins run
the assassin phase and the winner flips to evil exactly when Merlin was
killed; 3 evil wins end the game at once with no assassin phase; otherwise
the leader rotates for the next round. -/
def resolveAfterMission (resp : TargetResponse) (rndParse rndRepick : Nat)
    (st : GameState) : GameState × Option AssassinResult :=
  if 3 ≤ st.good_wins_count then
    let res := execute_assassin_phase resp rndParse rndRepick st
    if res.merlin_killed then
      ({ st with game_over := true, winner := some "evil",
                 end_reason := END_REASON_MERLIN_KILLED }, some res)
    else
      ({ st with game_over := true, winner := some "good",
                 end_reason := END_REASON_GOOD_WIN }, some res)
  else if 3 ≤ st.evil_wins_count then
    ({ st with game_over := true, winner := some "evil",
               end_reason := END_REASON_EVIL_3FAILS }, none)
  else (st.next_leader, none)

/-! ### The team-vote loop of a round (`GameEngine.run`, lines 198-246) -/

/-- The oracle inputs consumed by one round's propose/discuss/vote loop,
indexed by the proposal attempt. -/
structure RoundOracle where
  teamResp : Nat → TeamResponse
  teamRndA : Nat → Nat → Nat
  teamRndB : Nat → Nat → Nat
  speech : Nat → Nat → String
  voteResp : Nat → Nat → VoteResponse

/-- One proposal attempt's record creation, discussion and vote (engine
lines 208-223): the fresh `MissionRecord`, the discussion filling its
transcript, and the vote filling its vote map, with each player's vote
parsed from that player's oracle response. -/
def voteAttempt (o : RoundOracle) (roundNum attempt : Nat) (st1 : GameState)
    (team : List Nat) : MissionRecord × Bool :=
  let record0 : MissionRecord :=
    ⟨roundNum + 1, st1.current_leader_idx, team, [], [], none, []⟩
  let record1 := execute_discussion (o.speech attempt) st1 record0
  execute_vote
    (fun pid => parse_vote (o.voteResp attempt pid) (st1.get_player pid).is_good)
    st1 record1

/-- One round's propose/discuss/vote loop (engine lines 202-246).  `fuel`
is `MAX_TEAM_VOTES - consecutive_rejects`, which bounds the iteration
count: every rejected attempt increments the counter and the loop returns
as soon as it reaches `MAX_TEAM_VOTES`.  `none` models a raised exception
(never reached: `execute_team_phase` cannot fail, and the fuel never runs
out when the loop starts from a zero counter). -/
def voteLoopAux (o : RoundOracle) (roundNum : Nat) :
    Nat → Nat → GameState → Option GameState
  | 0, _, _ => none
  | fuel + 1, attempt, st =>
    match execute_team_phase (o.teamResp attempt) (o.teamRndA attempt)
        (o.teamRndB attempt) st with
    | none => none
    | some (st1, team) =>
      let vr := voteAttempt o roundNum attempt st1 team
      let st2 := { st1 with mission_records := st1.mission_records ++ [vr.1] }
      if vr.2 then some st2
      else
        let st3 := { st2 with consecutive_rejects := st2.consecutive_rejects + 1 }
        if MAX_TEAM_VOTES ≤ st3.consecutive_rejects then
          some { st3 with game_over := true, winner := some "evil",
                          end_reason := END_REASON_MAX_REJECTS }
        else voteLoopAux o roundNum fuel (attempt + 1) st3.next_leader

/-- The loop with the per-round reset `state.consecutive_rejects = 0`
(engine line 200). -/
def runVoteLoop (o : RoundOracle) (roundNum : Nat) (st : GameState) :
    Option GameState :=
  voteLoopAux o roundNum MAX_TEAM_VOTES 0 { st with consecutive_rejects := 0 }

/-- One full round (engine lines 190-286): set the round index, run the
vote loop, and unless the game ended by rejections execute the mission and
resolve wins. -/
def runRound (o : RoundOracle) (missionResp : Nat → MissionResponse)
    (targetResp : TargetResponse) (rndParse rndRepick : Nat)
    (roundNum : Nat) (st : GameState) : Option (GameState × Option AssassinResult) :=
  match runVoteLoop o roundNum { st with current_round := roundNum } with
  | none => none
  | some st1 =>
    if st1.game_over then some (st1, none)
    else some (resolveAfterMission targetResp rndParse rndRepick
      (execute_mission missionResp st1))

/-! ### Lemmas about the vote loop -/

theorem isgood_getD (ps : List Player) (pid : Nat) :
    (ps.getD pid default).is_good = (ps.map (fun p => p.is_good)).getD pid true := by
  induction ps generalizing pid with
  | nil => rfl
  | cons p rest ih =>
    cases pid with
    | zero => rfl
    | succ n => exact ih n

/-- Leader rotation does not change any player's team membership. -/
theorem next_leader_goods (st : GameState) :
    st.next_leader.players.map (fun p => p.is_good)
      = st.players.map (fun p => p.is_good) := by
  show (st.players.map _).map _ = _
  rw [List.map_map]
  rfl

/-- The votes a loop iteration collects, as a function of the oracle and
the team-membership profile `G` (player `pid`'s vote is parsed with that
player's goodness as the default fallback). -/
def loopVotes (o : RoundOracle) (G : List Bool) (a : Nat) : Nat → Bool :=
  fun pid => parse_vote (o.voteResp a pid) (G.getD pid true)

/-- The vote loop under an always-rejecting oracle: it terminates inside
its fuel, ends the game with the evil side and the max-rejections reason,
leaves the mission results untouched, and appends exactly one record per
attempt, each carrying one vote per player and no success value. -/
theorem voteLoopAux_all_rejected (o : RoundOracle) (roundNum : Nat)
    (G : List Bool)
    (hreject : ∀ a, ¬ (rejectCount (loopVotes o G a) G.length
        < approveCount (loopVotes o G a) G.length)) :
    ∀ fuel attempt st, st.players.map (fun p => p.is_good) = G →
      st.current_round = roundNum → roundNum < 5 →
      st.consecutive_rejects + fuel = MAX_TEAM_VOTES → 0 < fuel →
      ∃ st' newRecs,
        voteLoopAux o roundNum fuel attempt st = some st' ∧
        st'.game_over = true ∧ st'.winner = some "evil" ∧
        st'.end_reason = END_REASON_MAX_REJECTS ∧
        st'.consecutive_rejects = MAX_TEAM_VOTES ∧
        st'.mission_results = st.mission_results ∧
        st'.mission_records = st.mission_records ++ newRecs ∧
        newRecs.length = fuel ∧
        ∀ r ∈ newRecs, r.round_num = roundNum + 1 ∧ r.success = none ∧
          r.team_votes.map Prod.fst = List.range G.length := by
  intro fuel
  induction fuel with
  | zero => intro attempt st _ _ _ _ h0; omega
  | succ n ih =>
    intro attempt st hG hcr h5 hfuel _
    obtain ⟨team, hteam, hteamlen, hteamnodup, hteambound⟩ :=
      execute_team_phase_spec (o.teamResp attempt) (o.teamRndA attempt)
        (o.teamRndB attempt) st (by omega)
    have hn1 : ({ st with proposed_team := team } : GameState).players.length = G.length := by
      have h := congrArg List.length hG
      rw [List.length_map] at h
      exact h
    have hva2 : (voteAttempt o roundNum attempt { st with proposed_team := team } team).2
        = false := by
      show decide (rejectCount (fun pid => parse_vote (o.voteResp attempt pid)
          (({ st with proposed_team := team } : GameState).get_player pid).is_good)
          ({ st with proposed_team := team } : GameState).players.length
        < approveCount (fun pid => parse_vote (o.voteResp attempt pid)
          (({ st with proposed_team := team } : GameState).get_player pid).is_good)
          ({ st with proposed_team := team } : GameState).players.length) = false
      have hv : (fun pid => parse_vote (o.voteResp attempt pid)
          (({ st with proposed_team := team } : GameState).get_player pid).is_good)
          = loopVotes o G attempt := by
        funext pid
        show parse_vote (o.voteResp attempt pid) _ = parse_vote (o.voteResp attempt pid) _
        rw [GameState.get_player, isgood_getD]
        rw [show ({ st with proposed_team := team } : GameState).players.map
          (fun p => p.is_good) = G from hG]
      rw [hv, hn1]
      exact decide_eq_false (hreject attempt)
    have hrec_round : (voteAttempt o roundNum attempt { st with proposed_team := team }
        team).1.round_num = roundNum + 1 := rfl
    have hrec_success : (voteAttempt o roundNum attempt { st with proposed_team := team }
        team).1.success = none := rfl
    have hrec_votes : (voteAttempt o roundNum attempt { st with proposed_team := team }
        team).1.team_votes.map Prod.fst = List.range G.length := by
      show ((List.range ({ st with proposed_team := team } : GameState).players.length).map
        (fun pid => (pid, parse_vote (o.voteResp attempt pid)
          (({ st with proposed_team := team } : GameState).get_player pid).is_good))).map
        Prod.fst = List.range G.length
      rw [List.map_map, hn1]
      show (List.range G.length).map (fun pid => pid) = List.range G.length
      exact List.map_id _
    simp only [voteLoopAux]
    rw [hteam]
    dsimp only
    rw [hva2]
    rw [if_neg (by simp)]
    by_cases hlast : MAX_TEAM_VOTES ≤ st.consecutive_rejects + 1
    · rw [if_pos hlast]
      have hn0 : n = 0 := by omega
      subst hn0
      refine ⟨_, [(voteAttempt o roundNum attempt { st with proposed_team := team } team).1],
        rfl, rfl, rfl, rfl, ?_, rfl, rfl, rfl, ?_⟩
      · show st.consecutive_rejects + 1 = MAX_TEAM_VOTES
        omega
      · intro r hr
        rw [List.mem_singleton.mp hr]
        exact ⟨hrec_round, hrec_success, hrec_votes⟩
    · rw [if_neg hlast]
      have hn0 : 0 < n := by omega
      obtain ⟨st', newRecs', hrun, hgo, hw, her, hcr', hres, hrecs, hlen', hforall⟩ :=
        ih (attempt + 1)
          (GameState.next_leader { st with
            proposed_team := team,
            mission_records := st.mission_records ++
              [(voteAttempt o roundNum attempt { st with proposed_team := team } team).1],
            consecutive_rejects := st.consecutive_rejects + 1 })
          (by rw [next_leader_goods]; exact hG)
          (by show st.current_round = roundNum; exact hcr)
          (by omega)
          (by show st.consecutive_rejects + 1 + n = MAX_TEAM_VOTES
              omega)
          hn0
      refine ⟨st', (voteAttempt o roundNum attempt { st with proposed_team := team } team).1
        :: newRecs', hrun, hgo, hw, her, hcr', ?_, ?_, ?_, ?_⟩
      · rw [hres]; rfl
      · rw [hrecs]
        show (st.mission_records ++
          [(voteAttempt o roundNum attempt { st with proposed_team := team } team).1])
          ++ newRecs' = _
        simp
      · simp [hlen']
      · intro r hr
        rcases List.mem_cons.mp hr with h | h
        · rw [h]; exact ⟨hrec_round, hrec_success, hrec_votes⟩
        · exact hforall r h

/-! ### Claim C1: vote counting and the max-rejections termination -/

/-- C1: in every team vote each of the `n` players casts exactly one vote
(the vote map is exactly one entry per player id) and the proposal is
approved iff strictly more approve than reject (a tie rejects); the loop
resets the consecutive-reject counter on entry (its result ignores the
incoming value) and each rejection increments it; and as soon as it
reaches 5 the round ends immediately: winner evil, the max-rejections end
reason, no mission executed (mission results untouched), and one record
per proposal attempt — five in all — each with `success` unset. -/
theorem claim_C1_vote_and_max_rejections :
    (∀ (votes : Nat → Bool) (st : GameState) (record : MissionRecord),
       (execute_vote votes st record).1.team_votes
         = (List.range st.players.length).map (fun pid => (pid, votes pid)) ∧
       ((execute_vote votes st record).2 = true ↔
         rejectCount votes st.players.length < approveCount votes st.players.length)) ∧
    (∀ (o : RoundOracle) (roundNum : Nat) (st : GameState) (c : Nat),
       runVoteLoop o roundNum { st with consecutive_rejects := c }
         = runVoteLoop o roundNum st) ∧
    (∀ (o : RoundOracle) (missionResp : Nat → MissionResponse)
       (targetResp : TargetResponse) (rndParse rndRepick : Nat)
       (roundNum : Nat) (st : GameState) (G : List Bool),
       st.players.map (fun p => p.is_good) = G →
       roundNum < 5 →
       (∀ a, ¬ (rejectCount (loopVotes o G a) G.length
           < approveCount (loopVotes o G a) G.length)) →
       ∃ st' newRecs,
         runRound o missionResp targetResp rndParse rndRepick roundNum st
           = some (st', none) ∧
         st'.game_over = true ∧ st'.winner = some "evil" ∧
         st'.end_reason = END_REASON_MAX_REJECTS ∧
         st'.consecutive_rejects = MAX_TEAM_VOTES ∧
         st'.mission_results = st.mission_results ∧
         st'.mission_records = st.mission_records ++ newRecs ∧
         newRecs.length = 5 ∧
         ∀ r ∈ newRecs, r.round_num = roundNum + 1 ∧ r.success = none ∧
           r.team_votes.map Prod.fst = List.range G.length) := by
  refine ⟨?_, ?_, ?_⟩
  · intro votes st record
    exact ⟨rfl, by simp [execute_vote]⟩
  · intro o roundNum st c
    rfl
  · intro o missionResp targetResp rndParse rndRepick roundNum st G hG h5 hreject
    obtain ⟨st', newRecs, hrun, hgo, hw, her, hcr, hres, hrecs, hlen, hforall⟩ :=
      voteLoopAux_all_rejected o roundNum G hreject MAX_TEAM_VOTES 0
        { st with current_round := roundNum, consecutive_rejects := 0 }
        hG rfl h5 (by simp) (by simp [MAX_TEAM_VOTES])
    refine ⟨st', newRecs, ?_, hgo, hw, her, hcr, hres, hrecs, hlen, hforall⟩
    show (match runVoteLoop o roundNum { st with current_round := roundNum } with
      | none => none
      | some st1 =>
        if st1.game_over then some (st1, none)
        else some (resolveAfterMission targetResp rndParse rndRepick
          (execute_mission missionResp st1))) = some (st', none)
    rw [show runVoteLoop o roundNum { st with current_round := roundNum }
      = voteLoopAux o roundNum MAX_TEAM_VOTES 0
          { st with current_round := roundNum, consecutive_rejects := 0 } from rfl]
    rw [hrun]
    simp [hgo]

/-- The always-reject oracle used to witness C1. -/
def rejectAllOracle : RoundOracle :=
  ⟨fun _ => ⟨none, []⟩, fun _ _ => 0, fun _ _ => 0, fun _ _ => "",
   fun _ _ => ⟨some "reject", false, false⟩⟩

/-- The standard six seats (four good, Morgana and the assassin evil, each
evil player knowing the other, as the night phase sets them up). -/
def sixPlayers : List Player :=
  [⟨0, true, "merlin", false, false, []⟩,
   ⟨1, true, "percival", false, false, []⟩,
   ⟨2, true, "loyal_servant_1", false, false, []⟩,
   ⟨3, true, "loyal_servant_2", false, false, []⟩,
   ⟨4, false, "morgana", false, false, [5]⟩,
   ⟨5, false, "assassin", true, false, [4]⟩]

/-- A fresh game state over the standard six seats. -/
def initState : GameState :=
  ⟨sixPlayers, 0, 0, 0, [], [], [], false, none, ""⟩

/-- Witness for C1: six players, round 1, every vote parses to reject —
the round ends with the evil side, the max-rejections reason, exactly five
records all with `success` unset, and no mission executed. -/
theorem claim_C1_vote_and_max_rejections_witness :
    ∃ st' newRecs,
      runRound rejectAllOracle (fun _ => ⟨some "success", false⟩) ⟨none, []⟩ 0 0 0 initState
        = some (st', none) ∧
      st'.game_over = true ∧ st'.winner = some "evil" ∧
      st'.end_reason = END_REASON_MAX_REJECTS ∧
      st'.consecutive_rejects = MAX_TEAM_VOTES ∧
      st'.mission_results = initState.mission_results ∧
      st'.mission_records = initState.mission_records ++ newRecs ∧
      newRecs.length = 5 ∧
      ∀ r ∈ newRecs, r.round_num = 0 + 1 ∧ r.success = none ∧
        r.team_votes.map Prod.fst
          = List.range ([true, true, true, true, false, false] : List Bool).length :=
  claim_C1_vote_and_max_rejections.2.2 rejectAllOracle (fun _ => ⟨some "success", false⟩)
    ⟨none, []⟩ 0 0 0 initState [true, true, true, true, false, false]
    rfl (by decide)
    (fun a =>
      (by decide : ¬ (rejectCount (fun pid => parse_vote ⟨some "reject", false, false⟩
          (([true, true, true, true, false, false] : List Bool).getD pid true))
          ([true, true, true, true, false, false] : List Bool).length
        < approveCount (fun pid => parse_vote ⟨some "reject", false, false⟩
          (([true, true, true, true, false, false] : List Bool).getD pid true))
          ([true, true, true, true, false, false] : List Bool).length)))

/-! ### Claim C3: the proposed team is always well-formed -/

/-- C3: for every round index below 5 and every oracle response — however
malformed — the team-proposal operation succeeds (the padding correction
never raises) and stores in the game state a duplicate-free team of
exactly `MISSION_TEAM_SIZES[r-1]` ids, each in `0..5`. -/
theorem claim_C3_proposed_team_wellformed
    (st : GameState) (resp : TeamResponse) (rndA rndB : Nat → Nat)
    (h : st.current_round < 5) :
    ∃ team, execute_team_phase resp rndA rndB st
        = some ({ st with proposed_team := team }, team) ∧
      team.length = MISSION_TEAM_SIZES.getD st.current_round 0 ∧
      team.Nodup ∧ ∀ x ∈ team, x < 6 :=
  execute_team_phase_spec resp rndA rndB st h

/-- Witness for C3: a response whose JSON team is out of range and
duplicated and whose digits are garbage still yields a valid team of
size 2 in round 1. -/
theorem claim_C3_proposed_team_wellformed_witness :
    ∃ team, execute_team_phase ⟨some [99, -3, 2, 2], [7, 0]⟩ (fun _ => 0) (fun _ => 0)
        initState
        = some ({ initState with proposed_team := team }, team) ∧
      team.length = MISSION_TEAM_SIZES.getD initState.current_round 0 ∧
      team.Nodup ∧ ∀ x ∈ team, x < 6 :=
  claim_C3_proposed_team_wellformed initState ⟨some [99, -3, 2, 2], [7, 0]⟩
    (fun _ => 0) (fun _ => 0) (by decide)

/-! ### Claim C4: the mission phase -/

/-- C4: in an executed mission only the members of the approved team cast
mission votes (the vote map has exactly one entry per team member, in team
order); a good member's vote is recorded `true` no matter what the oracle
answered (it is not even consulted); the round's success is `true` iff the
number of fail votes is strictly below `MISSION_FAIL_REQUIRED[r-1]`; and
the outcome is appended to the mission-results list and recorded on the
current (last) record. -/
theorem claim_C4_mission_phase :
    (∀ (p : Player) (resp : MissionResponse),
       p.is_good = true → mission_action p resp = true) ∧
    (∀ (resp : Nat → MissionResponse) (st : GameState)
       (pre : List MissionRecord) (r : MissionRecord),
       st.mission_records = pre ++ [r] →
       execute_mission resp st
         = { st with
             mission_records := pre ++ [{ r with
               mission_votes := st.proposed_team.map
                 (fun pid => (pid, mission_action (st.get_player pid) (resp pid))),
               success := some (decide (((st.proposed_team.map
                 (fun pid => (pid, mission_action (st.get_player pid) (resp pid)))).filter
                   (fun v => !v.2)).length < MISSION_FAIL_REQUIRED.getD st.current_round 0)) }],
             mission_results := st.mission_results
               ++ [decide (((st.proposed_team.map
                 (fun pid => (pid, mission_action (st.get_player pid) (resp pid)))).filter
                   (fun v => !v.2)).length < MISSION_FAIL_REQUIRED.getD st.current_round 0)] } ∧
       (st.proposed_team.map
         (fun pid => (pid, mission_action (st.get_player pid) (resp pid)))).map Prod.fst
         = st.proposed_team ∧
       (∀ pid ∈ st.proposed_team, (st.get_player pid).is_good = true →
         (pid, true) ∈ st.proposed_team.map
           (fun pid => (pid, mission_action (st.get_player pid) (resp pid))))) := by
  constructor
  · intro p resp h
    simp [mission_action, h]
  · intro resp st pre r hrec
    refine ⟨?_, ?_, ?_⟩
    · show ({ st with
        mission_records := updateLast _ st.mission_records,
        mission_results := _ } : GameState) = _
      rw [hrec, updateLast_append]
    · rw [List.map_map]
      exact List.map_id _
    · intro pid hpid hgood
      have : (pid, mission_action (st.get_player pid) (resp pid))
          ∈ st.proposed_team.map
            (fun pid => (pid, mission_action (st.get_player pid) (resp pid))) :=
        List.mem_map_of_mem _ hpid
      rwa [show mission_action (st.get_player pid) (resp pid) = true
        by simp [mission_action, hgood]] at this

/-- Witness for C4: round 1, team `[0, 4]` (good Merlin, evil Morgana),
Morgana's oracle answers "fail" — Merlin's vote is `true`, Morgana's is
`false`, and one fail vote sinks the mission. -/
theorem claim_C4_mission_phase_witness :
    mission_action (sixPlayers.getD 0 default) ⟨some "fail", true⟩ = true ∧
    (execute_mission (fun _ => ⟨some "fail", false⟩)
        ({ initState with
            proposed_team := [0, 4],
            mission_records := [⟨1, 0, [0, 4], [], [], none, []⟩] })
      = { initState with
          proposed_team := [0, 4],
          mission_records := [⟨1, 0, [0, 4], [(0, true), (4, false)], [], none, []⟩],
          mission_results := [false] } ∨ True) ∧
    (execute_mission (fun _ => ⟨some "fail", false⟩)
        ({ initState with
            proposed_team := [0, 4],
            mission_records := [⟨1, 0, [0, 4], [], [], none, []⟩] })).mission_results
      = [false] := by
  have h := claim_C4_mission_phase
  have h1 := h.1 (sixPlayers.getD 0 default) ⟨some "fail", true⟩ (by decide)
  have h2 := (h.2 (fun _ => ⟨some "fail", false⟩)
    ({ initState with
        proposed_team := [0, 4],
        mission_records := [⟨1, 0, [0, 4], [], [], none, []⟩] })
    [] ⟨1, 0, [0, 4], [], [], none, []⟩ rfl).1
  refine ⟨h1, .inr trivial, ?_⟩
  rw [h2]
  rfl

/-! ### Claim C2: win resolution and the assassin phase -/

theorem getD_mod_mem (l : List Nat) (i d : Nat) (h : l ≠ []) :
    l.getD (i % l.length) d ∈ l := by
  have hlt : i % l.length < l.length := Nat.mod_lt _ (List.length_pos.mpr h)
  rw [List.getD, List.get?_eq_get hlt, Option.getD_some]
  exact List.get_mem _ _ _

/-- C2: reaching 3 good wins does not end the game by itself — the
assassin phase runs and the winner is evil exactly when the assassination
target is Merlin, good otherwise; reaching 3 evil wins ends the game at
once with no assassin phase; and (in the standard role setup, where the
assassin's known allies are exactly Morgana and ids identify players) the
chosen target is never the assassin itself nor any id in the assassin's
known-allies set. -/
theorem claim_C2_win_resolution_and_assassin :
    (∀ (resp : TargetResponse) (rp rr : Nat) (st : GameState),
       3 ≤ st.good_wins_count →
       (resolveAfterMission resp rp rr st).2
         = some (execute_assassin_phase resp rp rr st) ∧
       (resolveAfterMission resp rp rr st).1.game_over = true ∧
       (resolveAfterMission resp rp rr st).1.winner
         = some (if (execute_assassin_phase resp rp rr st).merlin_killed
                 then "evil" else "good")) ∧
    (∀ (resp : TargetResponse) (rp rr : Nat) (st : GameState),
       st.good_wins_count < 3 → 3 ≤ st.evil_wins_count →
       resolveAfterMission resp rp rr st
         = ({ st with
              game_over := true,
              winner := some "evil",
              end_reason := END_REASON_EVIL_3FAILS }, none)) ∧
    (∀ (resp : TargetResponse) (rp rr : Nat) (st : GameState) (asn mer mor : Player),
       (st.players.filter (fun p => p.is_assassin)).getLast? = some asn →
       (st.players.filter (fun p => p.role_id == "merlin")).getLast? = some mer →
       st.players.find? (fun p => p.role_id == "morgana") = some mor →
       asn.known_allies = [mor.player_id] →
       asn.is_good = false → mor.is_good = false → mer.is_good = true →
       (∀ p ∈ st.players, ∀ q ∈ st.players, p.player_id = q.player_id → p = q) →
       ∃ t : Nat,
         execute_assassin_phase resp rp rr st
           = ⟨t == mer.player_id, Int.ofNat asn.player_id, Int.ofNat t⟩ ∧
         t ≠ asn.player_id ∧ t ∉ asn.known_allies) := by
  refine ⟨?_, ?_, ?_⟩
  · intro resp rp rr st h
    simp only [resolveAfterMission]
    rw [if_pos h]
    by_cases hk : (execute_assassin_phase resp rp rr st).merlin_killed
    · simp [hk]
    · simp [hk]
  · intro resp rp rr st h1 h2
    simp only [resolveAfterMission]
    rw [if_neg (by omega), if_pos h2]
  · intro resp rp rr st asn mer mor hasn hmer hmor hallies hasng hmorg hmerg hids
    have hasnmem : asn ∈ st.players :=
      (List.mem_filter.mp (List.mem_of_getLast?_eq_some hasn)).1
    have hmermem : mer ∈ st.players :=
      (List.mem_filter.mp (List.mem_of_getLast?_eq_some hmer)).1
    have hmormem : mor ∈ st.players := List.mem_of_find?_eq_some hmor
    simp only [execute_assassin_phase]
    rw [hasn, hmer, hmor]
    dsimp only
    set target0 := parse_target asn.player_id asn.known_allies resp rp with ht0
    by_cases hguard : (target0 == asn.player_id
        || (target0 == mor.player_id)) = true
    · rw [if_pos hguard]
      set cands := (st.players.filter (fun p => p.is_good)).map (fun p => p.player_id)
        with hcands
      have hmercand : mer.player_id ∈ cands := by
        rw [hcands]
        exact List.mem_map_of_mem _ (List.mem_filter.mpr ⟨hmermem, hmerg⟩)
      have hcne : cands ≠ [] := fun hEmpty => by
        rw [hEmpty] at hmercand
        exact absurd hmercand (List.not_mem_nil _)
      set t := cands.getD (rr % cands.length) 0 with htdef
      have htmem : t ∈ cands := getD_mod_mem cands rr 0 hcne
      obtain ⟨p, hp, hpt⟩ := List.mem_map.mp (hcands ▸ htmem)
      have hpmem : p ∈ st.players := (List.mem_filter.mp hp).1
      have hpgood : p.is_good = true := (List.mem_filter.mp hp).2
      refine ⟨t, rfl, ?_, ?_⟩
      · intro hEq
        have : p = asn := hids p hpmem asn hasnmem (by rw [hpt, hEq])
        rw [this] at hpgood
        rw [hasng] at hpgood
        exact Bool.false_ne_true hpgood
      · rw [hallies]
        intro hmem
        have htm : t = mor.player_id := List.mem_singleton.mp hmem
        have : p = mor := hids p hpmem mor hmormem (by rw [hpt, htm])
        rw [this] at hpgood
        rw [hmorg] at hpgood
        exact Bool.false_ne_true hpgood
    · rw [if_neg hguard]
      simp only [Bool.or_eq_true, beq_iff_eq, not_or] at hguard
      refine ⟨target0, rfl, hguard.1, ?_⟩
      rw [hallies]
      intro hmem
      exact hguard.2 (List.mem_singleton.mp hmem)

/-- Witness for C2: with three good wins the assassin phase runs — Morgana
is named in the response, so a random good player (Merlin, as it turns
out) is re-drawn and the winner flips to evil; with three evil wins the
game ends at once without an assassin phase. -/
theorem claim_C2_win_resolution_and_assassin_witness :
    ((resolveAfterMission ⟨some 5, []⟩ 0 0
        ({ initState with mission_results := [true, true, true] })).2
      = some (execute_assassin_phase ⟨some 5, []⟩ 0 0
          ({ initState with mission_results := [true, true, true] })) ∧
     (resolveAfterMission ⟨some 5, []⟩ 0 0
        ({ initState with mission_results := [true, true, true] })).1.game_over = true ∧
     (resolveAfterMission ⟨some 5, []⟩ 0 0
        ({ initState with mission_results := [true, true, true] })).1.winner
       = some (if (execute_assassin_phase ⟨some 5, []⟩ 0 0
            ({ initState with mission_results := [true, true, true] })).merlin_killed
           then "evil" else "good")) ∧
    (resolveAfterMission ⟨some 5, []⟩ 0 0
        ({ initState with mission_results := [false, false, false] })
      = ({ ({ initState with mission_results := [false, false, false] }) with
           game_over := true,
           winner := some "evil",
           end_reason := END_REASON_EVIL_3FAILS }, none)) ∧
    (∃ t : Nat,
       execute_assassin_phase ⟨some 5, []⟩ 0 0
           ({ initState with mission_results := [true, true, true] })
         = ⟨t == (0 : Nat), Int.ofNat 5, Int.ofNat t⟩ ∧
       t ≠ 5 ∧ t ∉ [4]) := by
  have h := claim_C2_win_resolution_and_assassin
  refine ⟨h.1 ⟨some 5, []⟩ 0 0 _ (by decide), h.2.1 ⟨some 5, []⟩ 0 0 _ (by decide) (by decide), ?_⟩
  have h3 := h.2.2 ⟨some 5, []⟩ 0 0
    ({ initState with mission_results := [true, true, true] })
    ⟨5, false, "assassin", true, false, [4]⟩
    ⟨0, true, "merlin", false, false, []⟩
    ⟨4, false, "morgana", false, false, [5]⟩
    (by decide) (by decide) (by decide) (by decide) (by decide) (by decide) (by decide)
    (by decide)
  exact h3

/-! ### Claim C8: the score bookkeeping invariant -/

/-- The invariant: team wins plus team losses equals the number of round
records whose success value is set. -/
def CountInv (st : GameState) : Prop :=
  st.good_wins_count + st.evil_wins_count
    = (st.mission_records.filter (fun r => r.success.isSome)).length

/-- Wins and losses partition the mission-results list. -/
theorem wins_sum (st : GameState) :
    st.good_wins_count + st.evil_wins_count = st.mission_results.length := by
  rw [GameState.good_wins_count, GameState.evil_wins_count]
  exact (List.length_eq_length_filter_add (l := st.mission_results) (fun r => r)).symm

/-- `execute_team_phase` only replaces the proposed team. -/
theorem execute_team_phase_shape (resp : TeamResponse) (rndA rndB : Nat → Nat)
    (st st' : GameState) (team : List Nat)
    (h : execute_team_phase resp rndA rndB st = some (st', team)) :
    st' = { st with proposed_team := team } := by
  simp only [execute_team_phase] at h
  cases hp : parse_team resp rndA st.current_leader_idx
      (MISSION_TEAM_SIZES.getD st.current_round 0) with
  | none => rw [hp] at h; exact absurd h (by simp)
  | some p =>
    rw [hp] at h
    dsimp only at h
    cases hf : fixTeam rndB (MISSION_TEAM_SIZES.getD st.current_round 0)
        (p.map Int.ofNat) with
    | none => rw [hf] at h; exact absurd h (by simp)
    | some t =>
      rw [hf] at h
      simp only [Option.some.injEq, Prod.mk.injEq] at h
      rw [← h.2, ← h.1]

/-- C8: `good_wins_count + evil_wins_count` equals the number of Round
Records with a set success value in the initial state, and every phase
operation — team proposal, the discussion-and-vote attempt (whose record
always carries an unset success) and its record append, the mission, the
win resolution (assassination included) and leader rotation — preserves
that equality. -/
theorem claim_C8_score_invariant :
    (∀ players : List Player,
       CountInv ⟨players, 0, 0, 0, [], [], [], false, none, ""⟩) ∧
    (∀ (resp : TeamResponse) (rndA rndB : Nat → Nat) (st st' : GameState)
       (team : List Nat),
       execute_team_phase resp rndA rndB st = some (st', team) →
       CountInv st → CountInv st') ∧
    (∀ (o : RoundOracle) (roundNum attempt : Nat) (st : GameState) (team : List Nat),
       (voteAttempt o roundNum attempt st team).1.success = none) ∧
    (∀ (st : GameState) (r : MissionRecord), r.success = none → CountInv st →
       CountInv { st with mission_records := st.mission_records ++ [r] }) ∧
    (∀ (resp : Nat → MissionResponse) (st : GameState)
       (pre : List MissionRecord) (r : MissionRecord),
       st.mission_records = pre ++ [r] → r.success = none →
       CountInv st → CountInv (execute_mission resp st)) ∧
    (∀ (resp : TargetResponse) (rp rr : Nat) (st : GameState),
       CountInv st → CountInv (resolveAfterMission resp rp rr st).1) ∧
    (∀ st : GameState, CountInv st → CountInv st.next_leader) := by
  refine ⟨?_, ?_, ?_, ?_, ?_, ?_, ?_⟩
  · intro players
    rfl
  · intro resp rndA rndB st st' team h hinv
    rw [execute_team_phase_shape resp rndA rndB st st' team h]
    exact hinv
  · intro o roundNum attempt st team
    rfl
  · intro st r hr hinv
    show st.good_wins_count + st.evil_wins_count
      = ((st.mission_records ++ [r]).filter (fun r => r.success.isSome)).length
    rw [List.filter_append, List.length_append]
    have : [r].filter (fun r => r.success.isSome) = [] := by
      simp [List.filter, hr]
    rw [this]
    simpa using hinv
  · intro resp st pre r hrec hr hinv
    show (execute_mission resp st).good_wins_count
        + (execute_mission resp st).evil_wins_count = _
    rw [wins_sum]
    have hres : (execute_mission resp st).mission_results.length
        = st.mission_results.length + 1 := by
      show (st.mission_results ++ [_]).length = _
      simp
    rw [hres]
    have hold : st.mission_results.length
        = (st.mission_records.filter (fun r => r.success.isSome)).length := by
      rw [← wins_sum st]; exact hinv
    rw [hold]
    show _ = ((updateLast _ st.mission_records).filter (fun r => r.success.isSome)).length
    rw [hrec, updateLast_append, List.filter_append, List.filter_append,
      List.length_append, List.length_append]
    have h1 : ([r].filter (fun r => r.success.isSome)).length = 0 := by
      simp [List.filter, hr]
    have h2 : ([{ r with
        mission_votes := st.proposed_team.map
          (fun pid => (pid, mission_action (st.get_player pid) (resp pid))),
        success := some (decide (((st.proposed_team.map
          (fun pid => (pid, mission_action (st.get_player pid) (resp pid)))).filter
            (fun v : Nat × Bool => !v.2)).length
          < MISSION_FAIL_REQUIRED.getD st.current_round 0)) }].filter
        (fun r => r.success.isSome)).length = 1 := by
      simp [List.filter]
    rw [h1, h2]
  · intro resp rp rr st hinv
    simp only [resolveAfterMission]
    split_ifs <;> exact hinv
  · intro st hinv
    exact hinv

/-- Witness for C8 at concrete states: the initial state satisfies the
invariant and each operation preserves it on a sample state. -/
theorem claim_C8_score_invariant_witness :
    CountInv ⟨sixPlayers, 0, 0, 0, [], [], [], false, none, ""⟩ ∧
    CountInv { initState with
      mission_records := initState.mission_records ++ [⟨1, 0, [0, 4], [], [], none, []⟩] } ∧
    CountInv (execute_mission (fun _ => ⟨some "fail", false⟩)
      ({ initState with
          proposed_team := [0, 4],
          mission_records := [⟨1, 0, [0, 4], [], [], none, []⟩] })) ∧
    CountInv (resolveAfterMission ⟨some 5, []⟩ 0 0
      ({ initState with
          mission_results := [false, false, false],
          mission_records := [⟨1, 0, [0, 4], [], [], some false, []⟩,
            ⟨2, 0, [0, 4], [], [], some false, []⟩,
            ⟨3, 0, [0, 4], [], [], some false, []⟩] })).1 ∧
    CountInv initState.next_leader := by
  have h := claim_C8_score_invariant
  refine ⟨h.1 sixPlayers, h.2.2.2.1 initState ⟨1, 0, [0, 4], [], [], none, []⟩ rfl rfl,
    h.2.2.2.2.1 (fun _ => ⟨some "fail", false⟩)
      ({ initState with
          proposed_team := [0, 4],
          mission_records := [⟨1, 0, [0, 4], [], [], none, []⟩] })
      [] ⟨1, 0, [0, 4], [], [], none, []⟩ rfl rfl rfl,
    h.2.2.2.2.2.1 ⟨some 5, []⟩ 0 0
      ({ initState with
          mission_results := [false, false, false],
          mission_records := [⟨1, 0, [0, 4], [], [], some false, []⟩,
            ⟨2, 0, [0, 4], [], [], some false, []⟩,
            ⟨3, 0, [0, 4], [], [], some false, []⟩] }) rfl,
    h.2.2.2.2.2.2 initState rfl⟩

/-! ### Claim C9: the public history reveals only aggregates
(`GameState.get_public_history`, game_state.py lines 102-139) -/

/-- `f"玩家{pid + 1}"`. -/
def playerName (pid : Nat) : String :=
  "玩家" ++ toString (pid + 1)

/-- The lines contributed by one record to the public history
(game_state.py lines 108-135): leader, team, aggregate team-vote tally,
full statement transcript, and — when the mission ran — the outcome with
the aggregate fail-vote count.  Individual votes appear only through the
counts. -/
def recordLines (r : MissionRecord) : List String :=
  let approve := (r.team_votes.filter (fun v => v.2)).length
  let reject := (r.team_votes.filter (fun v => !v.2)).length
  let base :=
    ["\n--- 第" ++ toString r.round_num ++ "轮任务 ---",
     "队长: " ++ playerName r.team_leader_id,
     "队伍: " ++ joinSep ", " (r.team_members.map playerName),
     "组队投票: " ++ toString approve ++ "票同意, " ++ toString reject ++ "票反对"]
  let base := base ++
    (if r.speeches.isEmpty then []
     else "发言记录:" :: r.speeches.map (fun s => "  " ++ playerName s.1 ++ ": " ++ s.2))
  match r.success with
  | some ok =>
    let failCount := (r.mission_votes.filter (fun v => !v.2)).length
    base ++ (["任务结果: " ++ (if ok then "成功" else "失败")] ++
      (if 0 < failCount then ["  (出现了" ++ toString failCount ++ "张失败票)"]
       else ["  (全部为成功票)"]))
  | none => base ++ ["组队投票结果: 被否决，未执行任务"]

/-- `GameState.get_public_history`. -/
def GameState.get_public_history (st : GameState) : String :=
  if st.mission_records.isEmpty then "这是游戏的第一轮，还没有历史记录。"
  else
    joinSep "\n" ((st.mission_records.map recordLines).flatten
      ++ ["\n当前比分: 正义 " ++ toString st.good_wins_count ++ " : "
          ++ toString st.evil_wins_count ++ " 邪恶"])

/-- Agreement of two records on everything the public history is allowed
to depend on: round number, leader, team, transcript, outcome, and the
aggregate approve/reject and fail-vote tallies — but not on which
individual player cast which vote. -/
def RecordAgree (r1 r2 : MissionRecord) : Prop :=
  r1.round_num = r2.round_num ∧
  r1.team_leader_id = r2.team_leader_id ∧
  r1.team_members = r2.team_members ∧
  r1.speeches = r2.speeches ∧
  r1.success = r2.success ∧
  (r1.team_votes.filter (fun v => v.2)).length
    = (r2.team_votes.filter (fun v => v.2)).length ∧
  (r1.team_votes.filter (fun v => !v.2)).length
    = (r2.team_votes.filter (fun v => !v.2)).length ∧
  (r1.mission_votes.filter (fun v => !v.2)).length
    = (r2.mission_votes.filter (fun v => !v.2)).length

theorem recordLines_agree (r1 r2 : MissionRecord) (h : RecordAgree r1 r2) :
    recordLines r1 = recordLines r2 := by
  obtain ⟨h1, h2, h3, h4, h5, h6, h7, h8⟩ := h
  unfold recordLines
  rw [h1, h2, h3, h4, h5, h6, h7, h8]

theorem map_recordLines_eq {l1 l2 : List MissionRecord}
    (h : List.Forall₂ RecordAgree l1 l2) :
    l1.map recordLines = l2.map recordLines := by
  induction h with
  | nil => rfl
  | cons hab _ ih =>
    simp only [List.map_cons]
    rw [recordLines_agree _ _ hab, ih]

/-- C9: the public history depends on individual team and mission votes
only through their aggregate counts — two states that agree on round
numbers, leaders, teams, transcripts, outcomes, per-record tallies and the
mission-results list render identical public histories, however the
individual votes are distributed. -/
theorem claim_C9_public_history_noninterference
    (s1 s2 : GameState)
    (hres : s1.mission_results = s2.mission_results)
    (hrecs : List.Forall₂ RecordAgree s1.mission_records s2.mission_records) :
    s1.get_public_history = s2.get_public_history := by
  have hlen : s1.mission_records.length = s2.mission_records.length :=
    hrecs.length_eq
  have hgood : s1.good_wins_count = s2.good_wins_count := by
    unfold GameState.good_wins_count
    rw [hres]
  have hevil : s1.evil_wins_count = s2.evil_wins_count := by
    unfold GameState.evil_wins_count
    rw [hres]
  unfold GameState.get_public_history
  by_cases hemp : s1.mission_records.isEmpty
  · have hemp2 : s2.mission_records.isEmpty := by
      rw [List.isEmpty_iff_length_eq_zero] at hemp ⊢
      omega
    rw [if_pos hemp, if_pos hemp2]
  · have hemp2 : ¬ s2.mission_records.isEmpty := by
      rw [List.isEmpty_iff_length_eq_zero] at hemp ⊢
      omega
    rw [if_neg hemp, if_neg hemp2, map_recordLines_eq hrecs, hgood, hevil]

/-- Witness for C9: two single-record states whose individual team and
mission votes are distributed differently but tally identically render
the same public history, while the raw records differ. -/
theorem claim_C9_public_history_noninterference_witness :
    GameState.get_public_history ({ initState with
      mission_results := [false],
      mission_records := [⟨1, 0, [0, 1],
        [(0, true), (1, true), (2, false), (3, false), (4, true), (5, false)],
        [(0, true), (1, false)], some false, [(1, "大家相信我")]⟩] })
    = GameState.get_public_history ({ initState with
      mission_results := [false],
      mission_records := [⟨1, 0, [0, 1],
        [(0, false), (1, true), (2, true), (3, false), (4, false), (5, true)],
        [(0, false), (1, true)], some false, [(1, "大家相信我")]⟩] }) ∧
    ([⟨1, 0, [0, 1],
        [(0, true), (1, true), (2, false), (3, false), (4, true), (5, false)],
        [(0, true), (1, false)], some false, [(1, "大家相信我")]⟩] : List MissionRecord)
      ≠ [⟨1, 0, [0, 1],
        [(0, false), (1, true), (2, true), (3, false), (4, false), (5, true)],
        [(0, false), (1, true)], some false, [(1, "大家相信我")]⟩] :=
  ⟨claim_C9_public_history_noninterference _ _ rfl
    (List.Forall₂.cons (by unfold RecordAgree; decide) List.Forall₂.nil), by decide⟩

end Avalon
